import Mathlib

/-!
# Verification of the story-map navigation and state-synchronization core

A shallow embedding of the waypoint navigation core of the h5p-storymap
repository, together with proofs about its specified properties.

Embedding conventions:

* JavaScript numbers are modelled as rationals (`ℚ`); `NaN` and non-number
  values are represented by dedicated constructors of `JSValue`.
* The decimal string conversion `Number.prototype.toString` /
  `parseFloat` is modelled by an executable decimal codec (`numToString`,
  `parseFloatNum`).  JavaScript prints every finite number as its shortest
  round-tripping decimal; for numbers in the plain-notation range the
  printed string is the exact decimal expansion, which is what the codec
  produces.  Rationals without a finite decimal expansion (which cannot
  occur as JS float values) are printed as a dummy string.
* DOM manipulation, screen-reader output and event plumbing are omitted;
  only the state that the specification's claims observe is modelled.
* The external leaflet map capability is modelled as a store of
  center/zoom plus a locally linear geo-to-container-point conversion
  (`ScreenEnv`), which abstracts the projection at a fixed zoom level.
-/

namespace StoryMap

/-! ## JavaScript values -/

/-- A JavaScript value as far as `sanitizeNumber` can distinguish them:
an actual (non-NaN) number, `NaN`, a string, or anything whose `typeof` is
neither `number` nor `string` (undefined, null, booleans, objects). -/
inductive JSValue where
  | num (q : ℚ)
  | nan
  | str (s : String)
  | other
deriving DecidableEq, Repr

/-- The `typeof v === 'number'` test (`NaN` is a number in JavaScript). -/
def JSValue.isNumber : JSValue → Bool
  | .num _ => true
  | .nan => true
  | _ => false

/-! ## Decimal codec: characters and digits -/

/-- Decimal digit test for a character. -/
def isDigitCh (c : Char) : Bool := decide ('0' ≤ c) && decide (c ≤ '9')

/-- Numeric value of a digit character. -/
def chToDigit (c : Char) : Nat := c.toNat - '0'.toNat

/-- JavaScript whitespace as far as `String.prototype.trim` is concerned
(the model covers the ASCII whitespace characters). -/
def isWsCh (c : Char) : Bool :=
  decide (c = ' ') || decide (c = '\t') || decide (c = '\n') || decide (c = '\r') ||
  decide (c = '\x0b') || decide (c = '\x0c')

/-- Model of `String.prototype.trim`: strip leading and trailing whitespace. -/
def jsTrim (s : String) : String :=
  ⟨((s.data.dropWhile isWsCh).reverse.dropWhile isWsCh).reverse⟩

/-- Big-endian numeric value of a list of digit characters. -/
def charsToNat (cs : List Char) : Nat :=
  cs.foldl (fun acc c => acc * 10 + chToDigit c) 0

/-- Big-endian digit characters of a positive natural number; fuel-driven
so that it reduces in the kernel.  `natToCharsAux f n` is the digit string
of `n` provided `n ≤ f` (and `[]` for `n = 0`). -/
def natToCharsAux : Nat → Nat → List Char
  | 0, _ => []
  | f + 1, n =>
    if n = 0 then []
    else natToCharsAux f (n / 10) ++ [Nat.digitChar (n % 10)]

/-- Decimal digit string of a natural number (`"0"` for zero). -/
def natChars (n : Nat) : List Char :=
  if n = 0 then ['0'] else natToCharsAux n n

/-- Character list of the decimal expansion `m / 10 ^ k` for a natural
mantissa `m`, with the decimal point inserted `k` digits from the right
(plain form, zero-padded like JavaScript: `5/10^2` prints as `0.05`). -/
def decChars (m : Nat) (k : Nat) : List Char :=
  if k = 0 then natChars m
  else
    let s := List.replicate (k + 1 - (natChars m).length) '0' ++ natChars m
    s.take (s.length - k) ++ '.' :: s.drop (s.length - k)

/-- Divide out the factor `p` from `n` as often as possible.  Fuel-driven;
`divOutF p f n = (e, r)` satisfies `p ^ e * r = n` unconditionally. -/
def divOutF (p : Nat) : Nat → Nat → Nat × Nat
  | 0, n => (0, n)
  | f + 1, n =>
    if 2 ≤ p ∧ n ≠ 0 ∧ n % p = 0 then
      let r := divOutF p f (n / p)
      (r.1 + 1, r.2)
    else (0, n)

/-- The decimal exponent of a rational `q`: the smallest-in-spirit `k` with
`q * 10 ^ k` integral, or `none` if `q` has no finite decimal expansion
(i.e. its reduced denominator has a prime factor other than 2 and 5). -/
def ratDecExponent (q : ℚ) : Option Nat :=
  let r2 := divOutF 2 q.den q.den
  let r5 := divOutF 5 r2.2 r2.2
  if r5.2 = 1 then some (max r2.1 r5.1) else none

/-- Integer mantissa of `q` for decimal exponent `k`: `q * 10 ^ k` as an
integer (exact whenever `q.den ∣ 10 ^ k`). -/
def ratMantissa (q : ℚ) (k : Nat) : Int :=
  q.num * ((10 : Int) ^ k / (q.den : Int))

/-- Model of JavaScript `Number.prototype.toString` for finite numbers in
the plain-notation range: the exact decimal expansion, `-` prefixed for
negative numbers.  Rationals without finite decimal expansion (impossible
as JS floats) print as a dummy. -/
def numToString (q : ℚ) : String :=
  match ratDecExponent q with
  | none => "?"
  | some k =>
    let m := ratMantissa q k
    ⟨(if m < 0 then ['-'] else []) ++ decChars m.natAbs k⟩

/-- Longest prefix of decimal digit characters, and the rest. -/
def takeDigitsP : List Char → List Char × List Char
  | [] => ([], [])
  | c :: cs =>
    if isDigitCh c then
      let r := takeDigitsP cs
      (c :: r.1, r.2)
    else ([], c :: cs)

/-- Parse an unsigned decimal numeral `digits` or `digits.digits`,
requiring the whole input to be consumed. -/
def parseUnsignedQ (cs : List Char) : Option ℚ :=
  let p := takeDigitsP cs
  if p.1.isEmpty then none
  else
    match p.2 with
    | [] => some ((charsToNat p.1 : ℚ))
    | '.' :: rest2 =>
      let f := takeDigitsP rest2
      if f.1.isEmpty ∨ ¬f.2.isEmpty then none
      else some ((charsToNat p.1 : ℚ) + (charsToNat f.1 : ℚ) / (10 : ℚ) ^ f.1.length)
    | _ => none

/-- Model of `parseFloat` restricted to inputs that can pass the
`result.toString() === value.trim()` check of `sanitizeNumber`:
`parseFloat` skips leading whitespace and parses a decimal-numeral prefix.
Inputs with trailing garbage parse to a value whose `toString` differs
from the trimmed input and are rejected by that check in either case, so
the model parses the trimmed string as a whole and fails otherwise. -/
def parseFloatNum (s : String) : Option ℚ :=
  match (jsTrim s).data with
  | '-' :: cs => (parseUnsignedQ cs).map Neg.neg
  | cs => parseUnsignedQ cs

/-! ## Embedding of `sanitizeNumber` (src/scripts/services/util.js) -/

/-- The value of the local `result` after the parsing phase of
`sanitizeNumber`: `some q` when `result` is a non-NaN number, `none` when
it is `NaN` or not a number at all.  A string contributes its parsed value
only when printing that value reproduces the trimmed input. -/
def sanitizeParsed : JSValue → Option ℚ
  | .num q => some q
  | .str s =>
    match parseFloatNum s with
    | none => none
    | some q => if numToString q = jsTrim s then some q else none
  | _ => none

/-- The clamping tail of `sanitizeNumber`: return `min` if below a numeric
`min`, else `max` if above a numeric `max`, else the value itself. -/
def clampOpt (q : ℚ) (mn mx : Option ℚ) : ℚ :=
  match mn with
  | some m =>
    if q < m then m
    else match mx with
      | some M => if q > M then M else q
      | none => q
  | none =>
    match mx with
    | some M => if q > M then M else q
    | none => q

/-- Embedding of `sanitizeNumber(value, defaultValue, min, max)`.
Returns `.error` exactly where the source throws
`new Error('Invalid default value')`. -/
def sanitizeNumber (value defaultValue : JSValue) (min max : Option ℚ) :
    Except String JSValue :=
  match sanitizeParsed value with
  | none =>
    match defaultValue with
    | .num d => .ok (.num d)
    | .nan => .ok .nan
    | _ => .error "Invalid default value"
  | some q => .ok (.num (clampOpt q min max))

/-- Total wrapper of `sanitizeNumber` for the (ubiquitous) call sites that
pass a numeric default, where the source can never throw. -/
def sanitizeNumD (value : JSValue) (d : ℚ) (mn mx : Option ℚ) : ℚ :=
  match sanitizeParsed value with
  | none => d
  | some q => clampOpt q mn mx

theorem sanitizeNumber_num_default (value : JSValue) (d : ℚ) (mn mx : Option ℚ) :
    sanitizeNumber value (.num d) mn mx = .ok (.num (sanitizeNumD value d mn mx)) := by
  unfold sanitizeNumber sanitizeNumD
  cases sanitizeParsed value <;> rfl

/-! ## Constants (src/scripts/components/map/geo-map.js, map.js) -/

def LATITUDE_MIN : ℚ := -90
def LATITUDE_MAX : ℚ := 90
def LONGITUDE_MIN : ℚ := -180
def LONGITUDE_MAX : ℚ := 180

/-- Value 0.5 (written via `mkRat` so that it reduces in the kernel). -/
def DEFAULT_MAP_CENTER_X_PERCENTAGE : ℚ := mkRat 1 2

/-- Value 0.5. -/
def DEFAULT_MAP_CENTER_Y_PERCENTAGE : ℚ := mkRat 1 2

def DEFAULT_ZOOM_LEVEL : ℚ := 13

/-- First component of `DEFAULT_COORDINATES` (69.6456737). -/
def DEFAULT_COORDINATES_LAT : ℚ := mkRat 696456737 10000000

/-- Second component of `DEFAULT_COORDINATES` (18.9501558). -/
def DEFAULT_COORDINATES_LNG : ℚ := mkRat 189501558 10000000

/-- `MAP_CENTER_X_PERCENTAGE` of map.js (0.5). -/
def MAP_CENTER_X_PERCENTAGE : ℚ := mkRat 1 2

/-- `MAP_CENTER_X_PERCENTAGE_CONTENT_OPEN` of map.js (0.25). -/
def MAP_CENTER_X_PERCENTAGE_CONTENT_OPEN : ℚ := mkRat 1 4

/-! ## Waypoint and GeoMap state (src/scripts/models/waypoint.js, geo-map.js) -/

/-- Observable state of a `Waypoint`: index and id are fixed at
construction, `isOpen` is the marker open flag (`markerIsOpen`, initially
undefined, i.e. falsy). -/
structure WaypointS where
  index : Nat
  id : Nat
  lat : ℚ
  lng : ℚ
  isOpen : Bool
deriving DecidableEq, Repr

/-- Observable state of a `GeoMap` together with the underlying leaflet
map capability: registered waypoints, viewport center/zoom, the
capability's zoom bounds, the construction-time `params.zoomLevel`
(used by `reset`), and the mini-map layer visibility. -/
structure GeoMapState where
  waypoints : List WaypointS
  centerLat : ℚ
  centerLng : ℚ
  zoom : ℚ
  minZoom : ℚ
  maxZoom : ℚ
  paramsZoomLevel : ℚ
  miniMapVisible : Bool
deriving DecidableEq, Repr

/-- Locally linear model of leaflet's geo-to-container-point conversion at
a fixed zoom: a rendered size and scale factors (pixels per degree).  The
container point of a coordinate is
`(width/2 + (lng - centerLng) * sx, height/2 + (centerLat - lat) * sy)`. -/
structure ScreenEnv where
  width : ℚ
  height : ℚ
  sx : ℚ
  sy : ℚ
deriving DecidableEq, Repr

/-- Container-point x coordinate of a longitude under the linear screen
model (`map.latLngToContainerPoint`). -/
def containerX (env : ScreenEnv) (g : GeoMapState) (lng : ℚ) : ℚ :=
  env.width / 2 + (lng - g.centerLng) * env.sx

/-- Container-point y coordinate of a latitude under the linear screen
model. -/
def containerY (env : ScreenEnv) (g : GeoMapState) (lat : ℚ) : ℚ :=
  env.height / 2 + (g.centerLat - lat) * env.sy

namespace GeoMap

/-- `GeoMap.setView(coordinates, zoomLevel)`: each field sanitized, the
map capability stores the result.  Arguments are the raw JS values of
`coordinates.latitude`, `coordinates.longitude` and `zoomLevel`. -/
def setView (g : GeoMapState) (latV lngV zoomV : JSValue) : GeoMapState :=
  { g with
    centerLat := sanitizeNumD latV DEFAULT_COORDINATES_LAT (some LATITUDE_MIN) (some LATITUDE_MAX)
    centerLng := sanitizeNumD lngV DEFAULT_COORDINATES_LNG (some LONGITUDE_MIN) (some LONGITUDE_MAX)
    zoom := sanitizeNumD zoomV DEFAULT_ZOOM_LEVEL (some g.minZoom) (some g.maxZoom) }

/-- `GeoMap.panTo(coordinates, options)`: requires numeric coordinates
(always satisfied by the internal callers modelled here), sanitizes them,
pans; with a truthy `options.zoomLevel` the zoom is set after the move. -/
def panTo (g : GeoMapState) (lat lng : ℚ) (zoomOpt : Option ℚ) : GeoMapState :=
  { g with
    centerLat := sanitizeNumD (.num lat) DEFAULT_COORDINATES_LAT (some LATITUDE_MIN) (some LATITUDE_MAX)
    centerLng := sanitizeNumD (.num lng) DEFAULT_COORDINATES_LNG (some LONGITUDE_MIN) (some LONGITUDE_MAX)
    zoom :=
      match zoomOpt with
      | some z => if z ≠ 0 then z else g.zoom
      | none => g.zoom }

/-- `GeoMap.getWaypointById(id)`. -/
def getWaypointById (g : GeoMapState) (id : Nat) : Option WaypointS :=
  g.waypoints.find? (fun w => w.id == id)

/-- `GeoMap.getWaypointByIndex(index)`: `null` unless the argument is a
number within `[0, waypoints.length)`; a number that matches no waypoint
index (a fractional one, or `NaN`, for which both range guards are false
but the search also fails) yields `null` as well. -/
def getWaypointByIndex (g : GeoMapState) (idx : JSValue) : Option WaypointS :=
  match idx with
  | .num q =>
    if q < 0 ∨ (g.waypoints.length : ℚ) ≤ q then none
    else g.waypoints.find? (fun w => (w.index : ℚ) == q)
  | _ => none

/-- `GeoMap.setOpenWaypoint(waypoint)`: every registered waypoint becomes
open exactly when it is the given one (reference identity in the source;
structural identity here — the callers pass an element of the list). -/
def setOpenWaypoint (g : GeoMapState) (target : WaypointS) : GeoMapState :=
  { g with waypoints := g.waypoints.map (fun w => { w with isOpen := w == target }) }

/-- `GeoMap.centerOnWaypoint(id, options)`: no-op when the rendered size
has zero width or height or the id is unknown; otherwise computes the
viewport offset placing the marker at the given screen fractions and pans
(carrying `options.zoomLevel` into `panTo`). -/
def centerOnWaypoint (env : ScreenEnv) (g : GeoMapState) (id : Nat)
    (pctXV pctYV : JSValue) (zoomOpt : Option ℚ) : GeoMapState :=
  if env.width = 0 ∨ env.height = 0 then g
  else
    let px := sanitizeNumD pctXV DEFAULT_MAP_CENTER_X_PERCENTAGE (some 0) (some 1)
    let py := sanitizeNumD pctYV DEFAULT_MAP_CENTER_Y_PERCENTAGE (some 0) (some 1)
    match getWaypointById g id with
    | none => g
    | some w =>
      let targetX := env.width * px
      let targetY := env.height * py
      let markerX := containerX env g w.lng
      let markerY := containerY env g w.lat
      let offX := targetX - markerX
      let offY := targetY - markerY
      let ncX := env.width / 2 - offX
      let ncY := env.height / 2 - offY
      let ncLng := g.centerLng + (ncX - env.width / 2) / env.sx
      let ncLat := g.centerLat - (ncY - env.height / 2) / env.sy
      panTo g ncLat ncLng zoomOpt

/-- `GeoMap.toggleMiniMapVisibility(state?)`: boolean argument forces,
no argument inverts. -/
def toggleMiniMapVisibility (g : GeoMapState) (state? : Option Bool) : GeoMapState :=
  { g with miniMapVisible := match state? with | some b => b | none => !g.miniMapVisible }

/-- `GeoMap.reset()`: close every waypoint, then (when any exist) center
on the first one carrying the construction-time zoom level. -/
def reset (env : ScreenEnv) (g : GeoMapState) : GeoMapState :=
  let g1 := { g with waypoints := g.waypoints.map (fun (w : WaypointS) => { w with isOpen := false }) }
  match g1.waypoints with
  | [] => g1
  | w0 :: _ => centerOnWaypoint env g1 w0.id .other .other (some g.paramsZoomLevel)

end GeoMap

/-! ## Main controller state (src/scripts/components/main.js,
navigation-bar.js) -/

/-- Observable state of `Main` together with its `NavigationBar` (left and
right button enabled flags, mini-map toggle button active flag) and the
`Map`/`GeoMap` beneath it.  The progress-indicator text and the
screen-reader announcements are display-only and omitted. -/
structure MainState where
  openWaypointContentIndex : Int
  lastMarkerIndex : Int
  navLeftEnabled : Bool
  navRightEnabled : Bool
  minimapActive : Bool
  geo : GeoMapState
deriving DecidableEq, Repr

namespace Main

/-- `Main.updateButtonDisabledStates()`: backward enabled iff
`openWaypointContentIndex > 0`, forward enabled iff
`openWaypointContentIndex < lastMarkerIndex`. -/
def updateButtonDisabledStates (m : MainState) : MainState :=
  { m with
    navLeftEnabled := decide (0 < m.openWaypointContentIndex)
    navRightEnabled := decide (m.openWaypointContentIndex < m.lastMarkerIndex) }

/-- `Main.handleWaypointContentOpened(index)` (the screen-reader
announcement is omitted). -/
def handleWaypointContentOpened (m : MainState) (index : Int) : MainState :=
  updateButtonDisabledStates { m with openWaypointContentIndex := index }

/-- `Main.toggleMiniMap()` → `Map.toggleMiniMap()`: invert the mini-map
layer visibility (plus a resize, which has no modelled effect). -/
def toggleMiniMap (m : MainState) : MainState :=
  { m with geo := GeoMap.toggleMiniMapVisibility m.geo none }

/-- The second argument `Main` passes to `Map.centerOnWaypoint` from its
`onMarkerFocus` callback.  The source expression is
`this.getCurrentOpenWaypointContentIndex !== -1`: it compares the method
itself (the call parentheses are missing) with `-1`, so it is `true` for
every state. -/
def markerFocusContentOpenArg (_m : MainState) : Bool := true

end Main

namespace MapC

/-- `Map.centerOnWaypoint(waypoint, contentOpen)`: choose the horizontal
screen fraction from `contentOpen` and delegate to
`GeoMap.centerOnWaypoint`. -/
def centerOnWaypoint (env : ScreenEnv) (m : MainState) (w : WaypointS)
    (contentOpen : Bool) : MainState :=
  let pct := if contentOpen then MAP_CENTER_X_PERCENTAGE_CONTENT_OPEN else MAP_CENTER_X_PERCENTAGE
  { m with geo := GeoMap.centerOnWaypoint env m.geo w.id (.num pct) .other none }

end MapC

namespace Main

/-- The `onMarkerFocus` callback `Main` installs on `Map`. -/
def onMarkerFocus (env : ScreenEnv) (m : MainState) (w : WaypointS) : MainState :=
  MapC.centerOnWaypoint env m w (markerFocusContentOpenArg m)

end Main

namespace MapC

/-- `Map.openWaypointContent(waypoint, options)`: no-op when the waypoint
is already open; otherwise open it exclusively, notify `Main` (which
updates index and button states), and—unless `options.panTo === false`—
fire the marker-focus callback, which recenters. -/
def openWaypointContent (env : ScreenEnv) (m : MainState) (w : WaypointS)
    (panTo? : Option Bool) : MainState :=
  if w.isOpen then m
  else
    let m1 := { m with geo := GeoMap.setOpenWaypoint m.geo w }
    let m2 := Main.handleWaypointContentOpened m1 w.index
    if panTo? = some false then m2 else Main.onMarkerFocus env m2 w

/-- `Map.openWaypointContentByIndex(index, options)`: resolve the index,
silently ignore an unknown one. -/
def openWaypointContentByIndex (env : ScreenEnv) (m : MainState) (idx : JSValue)
    (panTo? : Option Bool) : MainState :=
  match GeoMap.getWaypointByIndex m.geo idx with
  | none => m
  | some w => openWaypointContent env m w panTo?

/-- `Map.reset()`: hide the content overlay (DOM-only) and reset the geo
map. -/
def reset (env : ScreenEnv) (m : MainState) : MainState :=
  { m with geo := GeoMap.reset env m.geo }

end MapC

namespace Main

/-- `Main.goBackward()`. -/
def goBackward (env : ScreenEnv) (m : MainState) : MainState :=
  MapC.openWaypointContentByIndex env m (.num ((m.openWaypointContentIndex : ℚ) - 1)) none

/-- `Main.goForward()`. -/
def goForward (env : ScreenEnv) (m : MainState) : MainState :=
  MapC.openWaypointContentByIndex env m (.num ((m.openWaypointContentIndex : ℚ) + 1)) none

/-- `Main.reset()`: clear the open index, recompute button states, reset
the map, reset the navigation bar (whose reset only touches the progress
text display, not the button enabled states). -/
def reset (env : ScreenEnv) (m : MainState) : MainState :=
  MapC.reset env (updateButtonDisabledStates { m with openWaypointContentIndex := -1 })

end Main

/-! ## Session state serialization (Main/NavigationBar/Map
getCurrentState & setCurrentState) -/

/-- The persisted snapshot shape
`{openWaypointContentIndex, navigationBar: {minimapActive},
map: {zoomLevel, coordinates}}` with coordinates stringified. -/
structure Snapshot where
  openWaypointContentIndex : Int
  minimapActive : Bool
  zoomLevel : ℚ
  latStr : String
  lngStr : String
deriving DecidableEq, Repr

namespace Main

/-- `Main.getCurrentState()`: open index, navigation-bar state (the
mini-map button's active flag) and map state (zoom plus the center
coordinates converted with `toString`). -/
def getCurrentState (m : MainState) : Snapshot :=
  { openWaypointContentIndex := m.openWaypointContentIndex
    minimapActive := m.minimapActive
    zoomLevel := m.geo.zoom
    latStr := numToString m.geo.centerLat
    lngStr := numToString m.geo.centerLng }

/-- `NavigationBar.setCurrentState(state)`: when a mini-map button exists
and `state.minimapActive === true`, `forceState(true)` activates the
button and—because `skipCallback` defaults to false—fires its click
callback, which runs `Main.toggleMiniMap` and hence inverts the mini-map
layer visibility. -/
def navigationBarSetCurrentState (m : MainState) (minimapActive : Bool) : MainState :=
  if minimapActive then toggleMiniMap { m with minimapActive := true } else m

/-- `Map.setCurrentState(state)`: with both coordinates present (always
the case for a snapshot produced by `getCurrentState`), delegate to
`GeoMap.setView` with the stringified coordinates and the stored zoom. -/
def mapSetCurrentState (m : MainState) (s : Snapshot) : MainState :=
  { m with geo := GeoMap.setView m.geo (.str s.latStr) (.str s.lngStr) (.num s.zoomLevel) }

/-- `Main.setCurrentState(state)`: restore the open index and button
states, the navigation bar, the map view, then reopen the stored waypoint
without panning. -/
def setCurrentState (env : ScreenEnv) (m : MainState) (s : Snapshot) : MainState :=
  let m1 := updateButtonDisabledStates { m with openWaypointContentIndex := s.openWaypointContentIndex }
  let m2 := navigationBarSetCurrentState m1 s.minimapActive
  let m3 := mapSetCurrentState m2 s
  MapC.openWaypointContentByIndex env m3 (.num (s.openWaypointContentIndex : ℚ)) (some false)

end Main

/-! ## Content bundle and progress tracking
(src/scripts/components/content-bundle/content-bundle.js,
services/h5p-util.js) -/

/-- Observable surface of an embedded H5P content instance: the optional
boolean `isTask` property, the optional `getMaxScore`/`getScore`
capabilities, the optional `resetTask` capability, and a flag recording
whether `resetTask` has been invoked. -/
structure InstanceS where
  isTaskProp : Option Bool
  getMaxScoreVal : Option ℚ
  getScoreVal : Option ℚ
  hasResetTask : Bool
  resetInvoked : Bool
deriving DecidableEq, Repr

/-- `isInstanceTask(instance)` of h5p-util.js: an explicit boolean
`isTask` wins; otherwise a present `getMaxScore()` returning a positive
value classifies the instance as a task. -/
def isInstanceTask (i : InstanceS) : Bool :=
  match i.isTaskProp with
  | some b => b
  | none =>
    match i.getMaxScoreVal with
    | some v => decide (0 < v)
    | none => false

/-- One record of `ContentBundle.trackingMap`.  Records written by the
xAPI listener carry no `isTask` field (`none` models the absent
property). -/
structure TrackingRecord where
  isTask : Option Bool
  completed : Bool
  success : Bool
deriving DecidableEq, Repr

/-- Association-list model of the plain-object `trackingMap`; keys are
content indices. -/
abbrev TrackingMap := List (Nat × TrackingRecord)

/-- Property assignment `trackingMap[index] = record`: replace an
existing key, else add it. -/
def tmSet (tm : TrackingMap) (k : Nat) (r : TrackingRecord) : TrackingMap :=
  if tm.any (fun e => e.1 == k) then
    tm.map (fun e => if e.1 == k then (k, r) else e)
  else tm ++ [(k, r)]

/-- Observable state of a `ContentBundle`. -/
structure ContentBundleS where
  instances : List InstanceS
  trackingMap : TrackingMap
deriving DecidableEq, Repr

/-- The result payload of an xAPI statement
(`event.getVerifiedStatementValue(['result'])`). -/
structure XAPIResult where
  completion : Option Bool
  success : Option Bool
  score : Option ℚ
  maxScore : Option ℚ
deriving DecidableEq, Repr

/-- The tracking record the xAPI listener stores.  The source expression
`result.success ?? (result.maxScore) ? ((result.score ?? 0) >= result.maxScore) : false`
parses as `(result.success ?? result.maxScore) ? … : false`, so the
truthiness of `result.success ?? result.maxScore` selects the branch and
the reported `result.success` value itself is never stored; when the
score branch is taken with `result.maxScore` absent, the JS comparison
`(score ?? 0) >= undefined` is false. -/
def xapiRecord (result : XAPIResult) : TrackingRecord :=
  let cond : Bool :=
    match result.success with
    | some b => b
    | none =>
      match result.maxScore with
      | some v => decide (v ≠ 0)
      | none => false
  { isTask := none
    completed := result.completion.getD true
    success :=
      if cond then
        match result.maxScore with
        | some v => decide (result.score.getD 0 ≥ v)
        | none => false
      else false }

namespace ContentBundle

/-- The xAPI listener `addContent` installs on a task instance:
ignore events without a numeric max score or with a verb other than
`completed`/`answered`, else store the tracking record (and raise the
bundle-level task-completed callback, which has no modelled state). -/
def handleXAPI (b : ContentBundleS) (index : Nat) (eventMaxScore : Option ℚ)
    (verb : String) (result : Option XAPIResult) : ContentBundleS :=
  if eventMaxScore.isNone then b
  else if verb ≠ "completed" && verb ≠ "answered" then b
  else { b with trackingMap := tmSet b.trackingMap index (xapiRecord (result.getD ⟨none, none, none, none⟩)) }

/-- `ContentBundle.addContent(contentParams, index)`: `none` models a
failed `H5P.newRunnable` (warning logged, item skipped).  A task instance
gets the xAPI listener (no record yet); a non-task instance is seeded
with `{isTask: false, completed: true, success: true}`. -/
def addContent (b : ContentBundleS) (inst : Option InstanceS) (index : Nat) : ContentBundleS :=
  match inst with
  | none => b
  | some i =>
    let b1 :=
      if isInstanceTask i then b
      else { b with trackingMap := tmSet b.trackingMap index ⟨some false, true, true⟩ }
    { b1 with instances := b1.instances ++ [i] }

/-- The constructor's `contents.forEach((c, index) => addContent(c, index))`
loop, starting from index `i0`. -/
def addContents : ContentBundleS → List (Option InstanceS) → Nat → ContentBundleS
  | b, [], _ => b
  | b, c :: cs, i => addContents (addContent b c i) cs (i + 1)

/-- A `ContentBundle` as built by the constructor from a list of content
descriptors. -/
def build (contents : List (Option InstanceS)) : ContentBundleS :=
  addContents ⟨[], []⟩ contents 0

/-- `ContentBundle.containsAnyTask()`. -/
def containsAnyTask (b : ContentBundleS) : Bool :=
  b.instances.any isInstanceTask

/-- `ContentBundle.isCompleted()`: every instance has a tracking record
(`instances.length === Object.keys(trackingMap).length`) and every record
is completed. -/
def isCompleted (b : ContentBundleS) : Bool :=
  b.instances.length == b.trackingMap.length &&
    b.trackingMap.all (fun e => e.2.completed)

/-- `ContentBundle.getScore()`: sum of the instances' scores, missing
capability counting as 0. -/
def getScore (b : ContentBundleS) : ℚ :=
  b.instances.foldl (fun total i => total + i.getScoreVal.getD 0) 0

/-- `ContentBundle.getMaxScore()`. -/
def getMaxScore (b : ContentBundleS) : ℚ :=
  b.instances.foldl (fun total i => total + i.getMaxScoreVal.getD 0) 0

/-- `ContentBundle.reset()`: invoke each instance's `resetTask` when
present, then delete every tracking record whose `isTask` is not
(strictly) `false`. -/
def reset (b : ContentBundleS) : ContentBundleS :=
  { instances := b.instances.map (fun i => if i.hasResetTask then { i with resetInvoked := true } else i)
    trackingMap := b.trackingMap.filter (fun e => e.2.isTask == some false) }

end ContentBundle

/-! ## Facts about the decimal codec -/

theorem chToDigit_digitChar {d : Nat} (h : d < 10) :
    chToDigit (Nat.digitChar d) = d := by
  interval_cases d <;> decide

theorem isDigitCh_digitChar {d : Nat} (h : d < 10) :
    isDigitCh (Nat.digitChar d) = true := by
  interval_cases d <;> decide

theorem isWsCh_of_digit {c : Char} (h : isDigitCh c = true) : isWsCh c = false := by
  simp only [isDigitCh, Bool.and_eq_true, decide_eq_true_eq] at h
  simp only [isWsCh, Bool.or_eq_false_iff, decide_eq_false_iff_not]
  obtain ⟨h1, h2⟩ := h
  refine ⟨⟨⟨⟨⟨?_, ?_⟩, ?_⟩, ?_⟩, ?_⟩, ?_⟩ <;> rintro rfl <;> revert h1 h2 <;> decide

theorem charsToNat_foldl (cs : List Char) (acc : Nat) :
    cs.foldl (fun a c => a * 10 + chToDigit c) acc
      = acc * 10 ^ cs.length + charsToNat cs := by
  induction cs generalizing acc with
  | nil => simp [charsToNat]
  | cons c cs ih =>
    show cs.foldl _ (acc * 10 + chToDigit c) = acc * 10 ^ (c :: cs).length + charsToNat (c :: cs)
    have hc : charsToNat (c :: cs) = cs.foldl (fun a c => a * 10 + chToDigit c) (0 * 10 + chToDigit c) := rfl
    rw [ih, hc, ih (0 * 10 + chToDigit c), List.length_cons]
    ring

theorem charsToNat_append (A B : List Char) :
    charsToNat (A ++ B) = charsToNat A * 10 ^ B.length + charsToNat B := by
  show (A ++ B).foldl _ 0 = _
  rw [List.foldl_append]
  exact charsToNat_foldl B _

theorem charsToNat_singleton (c : Char) : charsToNat [c] = chToDigit c := by
  simp [charsToNat]

theorem charsToNat_replicate_zero (z : Nat) :
    charsToNat (List.replicate z '0') = 0 := by
  induction z with
  | zero => rfl
  | succ z ih =>
    rw [List.replicate_succ', charsToNat_append, ih, charsToNat_singleton]
    decide

theorem charsToNat_natToCharsAux : ∀ f n, n ≤ f → charsToNat (natToCharsAux f n) = n
  | 0, n, h => by
    interval_cases n
    rfl
  | f + 1, n, h => by
    by_cases hn : n = 0
    · subst hn; simp [natToCharsAux, charsToNat]
    · have hdiv : n / 10 ≤ f := by
        have := Nat.div_lt_self (Nat.pos_of_ne_zero hn) (by norm_num : 1 < 10)
        omega
      simp only [natToCharsAux, if_neg hn]
      rw [charsToNat_append, charsToNat_natToCharsAux f (n / 10) hdiv,
        charsToNat_singleton, chToDigit_digitChar (Nat.mod_lt n (by norm_num))]
      simp only [List.length_singleton, pow_one]
      omega

theorem charsToNat_natChars (n : Nat) : charsToNat (natChars n) = n := by
  unfold natChars
  by_cases hn : n = 0
  · subst hn; decide
  · rw [if_neg hn]; exact charsToNat_natToCharsAux n n le_rfl

theorem mem_natToCharsAux_digit : ∀ f n c, c ∈ natToCharsAux f n → isDigitCh c = true
  | 0, _, c, h => by simp [natToCharsAux] at h
  | f + 1, n, c, h => by
    by_cases hn : n = 0
    · simp [natToCharsAux, hn] at h
    · simp only [natToCharsAux, if_neg hn, List.mem_append, List.mem_singleton] at h
      rcases h with h | h
      · exact mem_natToCharsAux_digit f (n / 10) c h
      · subst h; exact isDigitCh_digitChar (Nat.mod_lt n (by norm_num))

theorem mem_natChars_digit {n : Nat} {c : Char} (h : c ∈ natChars n) : isDigitCh c = true := by
  unfold natChars at h
  by_cases hn : n = 0
  · rw [if_pos hn] at h; simp at h; subst h; decide
  · rw [if_neg hn] at h; exact mem_natToCharsAux_digit n n c h

theorem natChars_ne_nil (n : Nat) : natChars n ≠ [] := by
  unfold natChars
  by_cases hn : n = 0
  · simp [hn]
  · rw [if_neg hn]
    cases n with
    | zero => exact absurd rfl hn
    | succ f => simp [natToCharsAux, hn]

theorem takeDigitsP_eq (ds rest : List Char)
    (hds : ∀ c ∈ ds, isDigitCh c = true)
    (hrest : ∀ c cs, rest = c :: cs → isDigitCh c = false) :
    takeDigitsP (ds ++ rest) = (ds, rest) := by
  induction ds with
  | nil =>
    cases rest with
    | nil => rfl
    | cons c cs => simp [takeDigitsP, hrest c cs rfl]
  | cons d ds ih =>
    have hd := hds d (by simp)
    simp only [List.cons_append, takeDigitsP, hd, if_true]
    rw [show takeDigitsP (List.append ds rest) = (ds, rest) from
      ih (fun c hc => hds c (by simp [hc]))]

theorem parseUnsignedQ_digits (I : List Char) (hne : I ≠ [])
    (hI : ∀ c ∈ I, isDigitCh c = true) :
    parseUnsignedQ I = some ((charsToNat I : ℚ)) := by
  have h : takeDigitsP I = (I, []) := by
    have := takeDigitsP_eq I [] hI (by intro c cs h; cases h)
    rwa [List.append_nil] at this
  unfold parseUnsignedQ
  rw [h]
  simp [List.isEmpty_iff, hne]

theorem parseUnsignedQ_dot (I F : List Char) (hIne : I ≠ []) (hFne : F ≠ [])
    (hI : ∀ c ∈ I, isDigitCh c = true) (hF : ∀ c ∈ F, isDigitCh c = true) :
    parseUnsignedQ (I ++ '.' :: F)
      = some ((charsToNat I : ℚ) + (charsToNat F : ℚ) / (10 : ℚ) ^ F.length) := by
  have h1 : takeDigitsP (I ++ '.' :: F) = (I, '.' :: F) :=
    takeDigitsP_eq I ('.' :: F) hI
      (by intro c cs hc; injection hc with hc1 _; subst hc1; decide)
  have h2 : takeDigitsP F = (F, []) := by
    have := takeDigitsP_eq F [] hF (by intro c cs h; cases h)
    rwa [List.append_nil] at this
  unfold parseUnsignedQ
  rw [h1]
  simp only [List.isEmpty_iff, hIne, if_false]
  rw [h2]
  simp [List.isEmpty_iff, hFne]

theorem mem_decChars {m k : Nat} {c : Char} (h : c ∈ decChars m k) :
    isDigitCh c = true ∨ c = '.' := by
  unfold decChars at h
  by_cases hk : k = 0
  · rw [if_pos hk] at h; exact Or.inl (mem_natChars_digit h)
  · rw [if_neg hk] at h
    have hP : ∀ x ∈ List.replicate (k + 1 - (natChars m).length) '0' ++ natChars m,
        isDigitCh x = true := by
      intro x hx
      rcases List.mem_append.mp hx with hx | hx
      · rw [List.eq_of_mem_replicate hx]; decide
      · exact mem_natChars_digit hx
    rcases List.mem_append.mp h with h | h
    · exact Or.inl (hP _ (List.take_subset _ _ h))
    · rcases List.mem_cons.mp h with h | h
      · exact Or.inr h
      · exact Or.inl (hP _ (List.drop_subset _ _ h))

theorem parseUnsignedQ_decChars (m k : Nat) :
    parseUnsignedQ (decChars m k) = some ((m : ℚ) / (10 : ℚ) ^ k) := by
  by_cases hk : k = 0
  · subst hk
    unfold decChars
    rw [if_pos rfl, parseUnsignedQ_digits _ (natChars_ne_nil m) (fun c hc => mem_natChars_digit hc),
      charsToNat_natChars]
    norm_num
  · unfold decChars
    rw [if_neg hk]
    set S := natChars m with hS
    set P := List.replicate (k + 1 - S.length) '0' ++ S with hP
    have hPd : ∀ c ∈ P, isDigitCh c = true := by
      intro x hx
      rcases List.mem_append.mp hx with hx | hx
      · rw [List.eq_of_mem_replicate hx]; decide
      · exact mem_natChars_digit hx
    have hSlen : 1 ≤ S.length := by
      cases hS' : S with
      | nil => exact absurd hS' (natChars_ne_nil m)
      | cons a l => simp
    have hPlen : k + 1 ≤ P.length := by
      rw [hP, List.length_append, List.length_replicate]
      omega
    have hval : charsToNat P = m := by
      rw [hP, charsToNat_append, charsToNat_replicate_zero, hS, charsToNat_natChars]
      ring
    have hIne : P.take (P.length - k) ≠ [] := by
      intro hnil
      have := congrArg List.length hnil
      rw [List.length_take] at this
      simp at this
      omega
    have hFlen : (P.drop (P.length - k)).length = k := by
      rw [List.length_drop]
      omega
    have hFne : P.drop (P.length - k) ≠ [] := by
      intro hnil
      rw [hnil] at hFlen
      simp at hFlen
      omega
    rw [parseUnsignedQ_dot _ _ hIne hFne
      (fun c hc => hPd c (List.take_subset _ _ hc))
      (fun c hc => hPd c (List.drop_subset _ _ hc))]
    have hsplit : charsToNat (P.take (P.length - k)) * 10 ^ k
        + charsToNat (P.drop (P.length - k)) = m := by
      have happ := charsToNat_append (P.take (P.length - k)) (P.drop (P.length - k))
      rw [List.take_append_drop, hval, hFlen] at happ
      omega
    rw [hFlen]
    have h10 : ((10 : ℚ)) ^ k ≠ 0 := pow_ne_zero _ (by norm_num)
    congr 1
    rw [eq_div_iff h10, add_mul, div_mul_cancel₀ _ h10]
    exact_mod_cast hsplit

theorem decChars_ne_nil (m k : Nat) : decChars m k ≠ [] := by
  unfold decChars
  by_cases hk : k = 0
  · rw [if_pos hk]; exact natChars_ne_nil m
  · rw [if_neg hk]
    intro h
    have := congrArg List.length h
    simp at this

theorem decChars_head_digit {m k : Nat} {c : Char} {rest : List Char}
    (h : decChars m k = c :: rest) : isDigitCh c = true := by
  unfold decChars at h
  by_cases hk : k = 0
  · rw [if_pos hk] at h
    exact mem_natChars_digit (h ▸ List.mem_cons_self c rest)
  · rw [if_neg hk] at h
    set P := List.replicate (k + 1 - (natChars m).length) '0' ++ natChars m with hP
    have h2 : P.take (P.length - k) ++ '.' :: P.drop (P.length - k) = c :: rest := h
    have hPd : ∀ x ∈ P, isDigitCh x = true := by
      intro x hx
      rcases List.mem_append.mp hx with hx | hx
      · rw [List.eq_of_mem_replicate hx]; decide
      · exact mem_natChars_digit hx
    have hPlen : k + 1 ≤ P.length := by
      have hSlen : 1 ≤ (natChars m).length := by
        cases hS' : natChars m with
        | nil => exact absurd hS' (natChars_ne_nil m)
        | cons a l => simp
      rw [hP, List.length_append, List.length_replicate]
      omega
    have htake : P.take (P.length - k) ≠ [] := by
      intro hnil
      have := congrArg List.length hnil
      rw [List.length_take] at this
      simp at this
      omega
    cases ht : P.take (P.length - k) with
    | nil => exact absurd ht htake
    | cons a l =>
      rw [ht, List.cons_append] at h2
      injection h2 with h1 _
      subst h1
      have hmem : a ∈ P.take (P.length - k) := by
        rw [ht]
        exact List.mem_cons_self a l
      exact hPd a (List.take_subset _ _ hmem)

theorem divOutF_decompose : ∀ (p f n : Nat), p ^ (divOutF p f n).1 * (divOutF p f n).2 = n
  | _, 0, n => by simp [divOutF]
  | p, f + 1, n => by
    by_cases h : 2 ≤ p ∧ n ≠ 0 ∧ n % p = 0
    · have ih := divOutF_decompose p f (n / p)
      have hstep : divOutF p (f + 1) n
          = ((divOutF p f (n / p)).1 + 1, (divOutF p f (n / p)).2) := by
        show (if 2 ≤ p ∧ n ≠ 0 ∧ n % p = 0 then
            ((divOutF p f (n / p)).1 + 1, (divOutF p f (n / p)).2)
          else (0, n)) = ((divOutF p f (n / p)).1 + 1, (divOutF p f (n / p)).2)
        rw [if_pos h]
      rw [hstep]
      obtain ⟨_, _, hmod⟩ := h
      have hdvd : p ∣ n := Nat.dvd_of_mod_eq_zero hmod
      calc p ^ ((divOutF p f (n / p)).1 + 1) * (divOutF p f (n / p)).2
          = p * (p ^ (divOutF p f (n / p)).1 * (divOutF p f (n / p)).2) := by ring
        _ = p * (n / p) := by rw [ih]
        _ = n := Nat.mul_div_cancel' hdvd
    · have hstep : divOutF p (f + 1) n = (0, n) := by
        unfold divOutF
        rw [if_neg h]
      rw [hstep]
      simp

theorem ratDecExponent_dvd {q : ℚ} {k : Nat} (h : ratDecExponent q = some k) :
    (q.den : Int) ∣ (10 : Int) ^ k := by
  unfold ratDecExponent at h
  by_cases h1 : (divOutF 5 (divOutF 2 q.den q.den).2 (divOutF 2 q.den q.den).2).2 = 1
  · rw [if_pos h1] at h
    injection h with hk
    have e2 := divOutF_decompose 2 q.den q.den
    have e5 := divOutF_decompose 5 (divOutF 2 q.den q.den).2 (divOutF 2 q.den q.den).2
    rw [h1, mul_one] at e5
    set a := (divOutF 2 q.den q.den).1
    set b := (divOutF 5 (divOutF 2 q.den q.den).2 (divOutF 2 q.den q.den).2).1
    have hden : q.den = 2 ^ a * 5 ^ b := by rw [← e2, ← e5]
    have hdvdNat : q.den ∣ 10 ^ k := by
      rw [hden, ← hk]
      have h10 : (10 : Nat) ^ max a b = 2 ^ max a b * 5 ^ max a b := by
        rw [← mul_pow]
        norm_num
      rw [h10]
      exact mul_dvd_mul (pow_dvd_pow 2 (le_max_left _ _)) (pow_dvd_pow 5 (le_max_right _ _))
    have := Int.natCast_dvd_natCast.mpr hdvdNat
    simpa using this
  · rw [if_neg h1] at h
    cases h

theorem ratMantissa_cast {q : ℚ} {k : Nat} (h : (q.den : Int) ∣ (10 : Int) ^ k) :
    ((ratMantissa q k : Int) : ℚ) = q * (10 : ℚ) ^ k := by
  obtain ⟨c, hc⟩ := h
  have hden0 : (q.den : Int) ≠ 0 := by
    exact_mod_cast q.den_nz
  unfold ratMantissa
  rw [hc, Int.mul_ediv_cancel_left _ hden0]
  push_cast
  have h10 : ((10 : ℚ)) ^ k = (q.den : ℚ) * (c : ℚ) := by
    have := congrArg (fun z : Int => (z : ℚ)) hc
    push_cast at this
    simpa using this
  rw [h10, show q * ((q.den : ℚ) * (c : ℚ)) = q * (q.den : ℚ) * (c : ℚ) by ring]
  rw [Rat.mul_den_eq_num]

theorem numToString_data {q : ℚ} {k : Nat} (h : ratDecExponent q = some k) :
    (numToString q).data
      = (if ratMantissa q k < 0 then ['-'] else []) ++ decChars (ratMantissa q k).natAbs k := by
  unfold numToString
  rw [h]

theorem mem_numToString_not_ws (q : ℚ) :
    ∀ c ∈ (numToString q).data, isWsCh c = false := by
  intro c hc
  unfold numToString at hc
  cases hrde : ratDecExponent q with
  | none =>
    rw [hrde] at hc
    simp only [String.data] at hc
    rcases List.mem_singleton.mp (by simpa using hc) with h
    subst h
    decide
  | some k =>
    rw [hrde] at hc
    simp only [String.data] at hc
    rcases List.mem_append.mp hc with h | h
    · by_cases hm : ratMantissa q k < 0
      · rw [if_pos hm] at h
        rcases List.mem_singleton.mp h with h
        subst h
        decide
      · rw [if_neg hm] at h
        cases h
    · rcases mem_decChars h with hd | hd
      · exact isWsCh_of_digit hd
      · subst hd; decide

theorem jsTrim_of_no_ws {s : String} (h : ∀ c ∈ s.data, isWsCh c = false) :
    jsTrim s = s := by
  have hdw : ∀ (l : List Char), (∀ c ∈ l, isWsCh c = false) → l.dropWhile isWsCh = l := by
    intro l hl
    cases l with
    | nil => rfl
    | cons c cs => simp [List.dropWhile_cons, hl c (List.mem_cons_self c cs)]
  unfold jsTrim
  rw [hdw _ h, hdw _ (by intro c hc; exact h c (List.mem_reverse.mp hc)), List.reverse_reverse]

theorem jsTrim_numToString (q : ℚ) : jsTrim (numToString q) = numToString q :=
  jsTrim_of_no_ws (mem_numToString_not_ws q)

theorem parseFloatNum_numToString {q : ℚ} {k : Nat} (h : ratDecExponent q = some k) :
    parseFloatNum (numToString q) = some q := by
  have hdvd := ratDecExponent_dvd h
  have hcast := ratMantissa_cast hdvd
  have h10 : ((10 : ℚ)) ^ k ≠ 0 := pow_ne_zero _ (by norm_num)
  have hq : q = ((ratMantissa q k : Int) : ℚ) / (10 : ℚ) ^ k := by
    rw [hcast, mul_div_cancel_right₀ _ h10]
  unfold parseFloatNum
  rw [jsTrim_numToString, numToString_data h]
  by_cases hm : ratMantissa q k < 0
  · rw [if_pos hm]
    simp only [List.singleton_append]
    rw [parseUnsignedQ_decChars]
    have hnat : (((ratMantissa q k).natAbs : ℚ)) = -((ratMantissa q k : Int) : ℚ) := by
      rw [Nat.cast_natAbs, abs_of_neg hm]
      push_cast
      ring
    rw [show ∀ x : ℚ, Option.map Neg.neg (some x) = some (-x) from fun x => rfl]
    congr 1
    rw [hnat, neg_div, neg_neg, hcast, mul_div_cancel_right₀ _ h10]
  · rw [if_neg hm]
    simp only [List.nil_append]
    have hhead : ∀ c rest, decChars (ratMantissa q k).natAbs k = c :: rest → c ≠ '-' := by
      intro c rest hc hcontra
      have := decChars_head_digit hc
      subst hcontra
      exact absurd this (by decide)
    cases hd : decChars (ratMantissa q k).natAbs k with
    | nil => exact absurd hd (decChars_ne_nil _ _)
    | cons c rest =>
      have hcne := hhead c rest hd
      have hred : (match c :: rest with
          | '-' :: cs => (parseUnsignedQ cs).map Neg.neg
          | cs => parseUnsignedQ cs) = parseUnsignedQ (c :: rest) := by
        split
        · rename_i cs heq
          injection heq with h1 _
          exact absurd h1 hcne
        · rfl
      rw [hred, ← hd, parseUnsignedQ_decChars]
      have hnat : (((ratMantissa q k).natAbs : ℚ)) = ((ratMantissa q k : Int) : ℚ) := by
        rw [Nat.cast_natAbs, abs_of_nonneg (not_lt.mp hm)]
      congr 1
      rw [hnat, hcast, mul_div_cancel_right₀ _ h10]

theorem sanitizeParsed_numToString {q : ℚ} (h : (ratDecExponent q).isSome) :
    sanitizeParsed (.str (numToString q)) = some q := by
  obtain ⟨k, hk⟩ := Option.isSome_iff_exists.mp h
  show (match parseFloatNum (numToString q) with
    | none => none
    | some q' => if numToString q' = jsTrim (numToString q) then some q' else none) = some q
  rw [parseFloatNum_numToString hk, jsTrim_numToString]
  show (if numToString q = numToString q then some q else none) = some q
  rw [if_pos rfl]

/-! ## Facts about `sanitizeNumber` -/

theorem sanitizeNumD_num (q d : ℚ) (mn mx : Option ℚ) :
    sanitizeNumD (.num q) d mn mx = clampOpt q mn mx := rfl

theorem sanitizeNumD_invalid {v : JSValue} (d : ℚ) (mn mx : Option ℚ)
    (h : sanitizeParsed v = none) : sanitizeNumD v d mn mx = d := by
  unfold sanitizeNumD
  rw [h]

theorem sanitizeNumD_valid {v : JSValue} {q : ℚ} (d : ℚ) (mn mx : Option ℚ)
    (h : sanitizeParsed v = some q) : sanitizeNumD v d mn mx = clampOpt q mn mx := by
  unfold sanitizeNumD
  rw [h]

theorem clampOpt_eq_max_min {mn mx : ℚ} (q : ℚ) (h : mn ≤ mx) :
    clampOpt q (some mn) (some mx) = max mn (min mx q) := by
  show (if q < mn then mn else if q > mx then mx else q) = max mn (min mx q)
  by_cases h1 : q < mn
  · rw [if_pos h1, min_eq_right (le_of_lt (lt_of_lt_of_le h1 h)), max_eq_left (le_of_lt h1)]
  · rw [if_neg h1]
    by_cases h2 : q > mx
    · rw [if_pos h2, min_eq_left (le_of_lt h2), max_eq_right h]
    · rw [if_neg h2, min_eq_right (not_lt.mp h2), max_eq_right (not_lt.mp h1)]

theorem sanitizeNumber_invalid_default {v d : JSValue} (mn mx : Option ℚ)
    (hv : sanitizeParsed v = none) (hd : d.isNumber = false) :
    sanitizeNumber v d mn mx = .error "Invalid default value" := by
  unfold sanitizeNumber
  rw [hv]
  cases d with
  | num q => simp [JSValue.isNumber] at hd
  | nan => simp [JSValue.isNumber] at hd
  | str s => rfl
  | other => rfl

theorem sanitizeNumber_ok {v d : JSValue} (mn mx : Option ℚ) (hd : d.isNumber = true) :
    ∃ r, sanitizeNumber v d mn mx = .ok r ∧ r.isNumber = true := by
  unfold sanitizeNumber
  cases hv : sanitizeParsed v with
  | none =>
    cases d with
    | num q => exact ⟨.num q, rfl, rfl⟩
    | nan => exact ⟨.nan, rfl, rfl⟩
    | str s => exact absurd hd (by simp [JSValue.isNumber])
    | other => exact absurd hd (by simp [JSValue.isNumber])
  | some q => exact ⟨.num (clampOpt q mn mx), rfl, rfl⟩

theorem sanitizeParsed_str_iff (s : String) (q : ℚ) :
    sanitizeParsed (.str s) = some q
      ↔ parseFloatNum s = some q ∧ numToString q = jsTrim s := by
  have hdef : sanitizeParsed (.str s)
      = (match parseFloatNum s with
        | none => none
        | some q' => if numToString q' = jsTrim s then some q' else none) := rfl
  rw [hdef]
  cases hp : parseFloatNum s with
  | none => simp
  | some q' =>
    show (if numToString q' = jsTrim s then some q' else none) = some q
      ↔ some q' = some q ∧ numToString q = jsTrim s
    by_cases hts : numToString q' = jsTrim s
    · rw [if_pos hts]
      constructor
      · intro h
        injection h with h
        subst h
        exact ⟨rfl, hts⟩
      · intro ⟨h1, _⟩
        injection h1 with h1
        rw [h1]
    · rw [if_neg hts]
      constructor
      · intro h; cases h
      · intro ⟨h1, h2⟩
        injection h1 with h1
        subst h1
        exact absurd h2 hts

/-- C10 (part): the throw condition, both directions. -/
theorem sanitizeNumber_error_iff (v d : JSValue) (mn mx : Option ℚ) :
    (∃ e, sanitizeNumber v d mn mx = .error e)
      ↔ (sanitizeParsed v = none ∧ d.isNumber = false) := by
  constructor
  · intro ⟨e, he⟩
    unfold sanitizeNumber at he
    cases hv : sanitizeParsed v with
    | none =>
      rw [hv] at he
      cases d with
      | num q => cases he
      | nan => cases he
      | str s => exact ⟨rfl, rfl⟩
      | other => exact ⟨rfl, rfl⟩
    | some q => rw [hv] at he; cases he
  · intro ⟨hv, hd⟩
    exact ⟨_, sanitizeNumber_invalid_default mn mx hv hd⟩

/-- C10: behaviour of `sanitizeNumber` — with a numeric default it always
returns a number and never throws; a string is accepted exactly when
`parseFloat` of it prints back to the exact trimmed string (in particular
every serialized coordinate string parses back to the original number);
any other non-numeric or `NaN` input yields the default; a parsed value
below a numeric `min` (resp. above a numeric `max`) is clamped to that
bound; and an exception occurs exactly for an invalid value together with
a non-numeric default. -/
theorem sanitizeNumber_spec :
    (∀ (v d : JSValue) (mn mx : Option ℚ), d.isNumber = true →
      ∃ r, sanitizeNumber v d mn mx = .ok r ∧ r.isNumber = true)
  ∧ (∀ (s : String) (q : ℚ),
      sanitizeParsed (.str s) = some q
        ↔ parseFloatNum s = some q ∧ numToString q = jsTrim s)
  ∧ (∀ q : ℚ, (ratDecExponent q).isSome →
      sanitizeParsed (.str (numToString q)) = some q)
  ∧ (∀ (v : JSValue) (d : ℚ) (mn mx : Option ℚ), sanitizeParsed v = none →
      sanitizeNumber v (.num d) mn mx = .ok (.num d))
  ∧ (∀ (v d : JSValue) (q mn mx : ℚ), sanitizeParsed v = some q →
      sanitizeNumber v d (some mn) (some mx)
        = .ok (.num (if q < mn then mn else if q > mx then mx else q)))
  ∧ (∀ (v d : JSValue) (mn mx : Option ℚ),
      (∃ e, sanitizeNumber v d mn mx = .error e)
        ↔ (sanitizeParsed v = none ∧ d.isNumber = false)) := by
  refine ⟨fun v d mn mx hd => sanitizeNumber_ok mn mx hd,
    sanitizeParsed_str_iff,
    fun q hq => sanitizeParsed_numToString hq,
    fun v d mn mx hv => ?_,
    fun v d q mn mx hv => ?_,
    sanitizeNumber_error_iff⟩
  · unfold sanitizeNumber
    rw [hv]
  · unfold sanitizeNumber
    rw [hv]
    rfl

unseal Rat.add Rat.mul Rat.sub Rat.inv in
/-- Witness for C10 at concrete inputs: the serialized string
`"69.6456737"` is accepted and clamped within `[-90, 90]` to itself, and
an undefined value with an undefined default throws. -/
theorem sanitizeNumber_spec_witness :
    sanitizeNumber (.str "69.6456737") (.num 13) (some (-90)) (some 90)
      = .ok (.num (mkRat 696456737 10000000))
    ∧ (∃ e, sanitizeNumber .other .other none none = .error e) := by
  constructor
  · have hparsed : sanitizeParsed (.str "69.6456737") = some (mkRat 696456737 10000000) := by
      decide
    have h := sanitizeNumber_spec.2.2.2.2.1 (.str "69.6456737") (.num 13)
      (mkRat 696456737 10000000) (-90) 90 hparsed
    rw [h]
    norm_num
  · exact (sanitizeNumber_spec.2.2.2.2.2 .other .other none none).mpr (by decide)

/-! ## C8: `setView` sanitization -/

/-- C8 (amended): `setView` clамps numeric latitude into `[-90, 90]`,
longitude into `[-180, 180]` and zoom into the capability's
`[minZoom, maxZoom]`; the concrete input `(999, -200, 50)` lands on
`(90, -180, maxZoom)`; a non-numeric field yields the documented default
(69.6456737 / 18.9501558 / 13) regardless of the last-known view; and
every internal `sanitizeNumber` call (numeric default) returns a number
rather than throwing. -/
theorem setView_clamps :
    (∀ (g : GeoMapState) (qla qln qz : ℚ), g.minZoom ≤ g.maxZoom →
      GeoMap.setView g (.num qla) (.num qln) (.num qz)
        = { g with
            centerLat := max (-90) (min 90 qla)
            centerLng := max (-180) (min 180 qln)
            zoom := max g.minZoom (min g.maxZoom qz) })
  ∧ (∀ (g : GeoMapState) (v1 v2 v3 : JSValue), sanitizeParsed v1 = none →
      (GeoMap.setView g v1 v2 v3).centerLat = DEFAULT_COORDINATES_LAT)
  ∧ (∀ (g : GeoMapState) (v1 v2 v3 : JSValue), sanitizeParsed v2 = none →
      (GeoMap.setView g v1 v2 v3).centerLng = DEFAULT_COORDINATES_LNG)
  ∧ (∀ (g : GeoMapState) (v1 v2 v3 : JSValue), sanitizeParsed v3 = none →
      (GeoMap.setView g v1 v2 v3).zoom = DEFAULT_ZOOM_LEVEL)
  ∧ (∀ g : GeoMapState, g.minZoom ≤ g.maxZoom → g.maxZoom ≤ 50 →
      GeoMap.setView g (.num 999) (.num (-200)) (.num 50)
        = { g with centerLat := 90, centerLng := -180, zoom := g.maxZoom })
  ∧ (∀ (v : JSValue) (d : ℚ) (mn mx : Option ℚ),
      ∃ q : ℚ, sanitizeNumber v (.num d) mn mx = .ok (.num q)) := by
  have hlat : (LATITUDE_MIN : ℚ) ≤ LATITUDE_MAX := by norm_num [LATITUDE_MIN, LATITUDE_MAX]
  have hlng : (LONGITUDE_MIN : ℚ) ≤ LONGITUDE_MAX := by norm_num [LONGITUDE_MIN, LONGITUDE_MAX]
  refine ⟨?_, ?_, ?_, ?_, ?_, ?_⟩
  · intro g qla qln qz hz
    unfold GeoMap.setView
    rw [sanitizeNumD_num, sanitizeNumD_num, sanitizeNumD_num,
      clampOpt_eq_max_min _ hlat, clampOpt_eq_max_min _ hlng, clampOpt_eq_max_min _ hz]
    congr 1
  · intro g v1 v2 v3 h1
    unfold GeoMap.setView
    simp only [sanitizeNumD_invalid _ _ _ h1]
  · intro g v1 v2 v3 h2
    unfold GeoMap.setView
    simp only [sanitizeNumD_invalid _ _ _ h2]
  · intro g v1 v2 v3 h3
    unfold GeoMap.setView
    simp only [sanitizeNumD_invalid _ _ _ h3]
  · intro g hz h50
    unfold GeoMap.setView
    rw [sanitizeNumD_num, sanitizeNumD_num, sanitizeNumD_num,
      clampOpt_eq_max_min _ hlat, clampOpt_eq_max_min _ hlng, clampOpt_eq_max_min _ hz]
    have e1 : max LATITUDE_MIN (min LATITUDE_MAX (999 : ℚ)) = (90 : ℚ) := by
      rw [min_eq_left (by norm_num [LATITUDE_MAX]), max_eq_right hlat]
      norm_num [LATITUDE_MAX]
    have e2 : max LONGITUDE_MIN (min LONGITUDE_MAX ((-200) : ℚ)) = (-180 : ℚ) := by
      rw [min_eq_right (by norm_num [LONGITUDE_MAX]), max_eq_left (by norm_num [LONGITUDE_MIN])]
      norm_num [LONGITUDE_MIN]
    have e3 : max g.minZoom (min g.maxZoom (50 : ℚ)) = g.maxZoom := by
      rw [min_eq_left h50, max_eq_right hz]
    rw [e1, e2, e3]
  · intro v d mn mx
    exact ⟨sanitizeNumD v d mn mx, sanitizeNumber_num_default v d mn mx⟩

/-- A witness map state for the `setView` theorems: the current view is
the origin at zoom 13 with zoom bounds `[0, 18]`. -/
def geoOrigin : GeoMapState :=
  { waypoints := [], centerLat := 0, centerLng := 0, zoom := 13,
    minZoom := 0, maxZoom := 18, paramsZoomLevel := 13, miniMapVisible := false }

/-- Witness for C8 at concrete inputs: clamping of `(999, -200, 50)` on a
map with zoom bounds `[0, 18]`. -/
theorem setView_clamps_witness :
    GeoMap.setView geoOrigin (.num 999) (.num (-200)) (.num 50)
      = { geoOrigin with centerLat := 90, centerLng := -180, zoom := 18 } := by
  have h := setView_clamps.2.2.2.2.1 geoOrigin (by norm_num [geoOrigin]) (by norm_num [geoOrigin])
  rw [h]
  rfl

/-- C8 counterexample: the claim says a non-numeric input yields the
last-known value; the code returns the documented default instead.  With
the last-known center latitude 0, `setView` with an undefined latitude
produces 69.6456737, not 0. -/
theorem setView_invalid_not_last_known :
    (GeoMap.setView geoOrigin .other .other (.num 13)).centerLat ≠ geoOrigin.centerLat
    ∧ (GeoMap.setView geoOrigin .other .other (.num 13)).centerLat
        = DEFAULT_COORDINATES_LAT := by
  constructor <;> decide

/-! ## State-machine lemmas: mutual exclusion and no-op navigation -/

/-- Registered waypoints carry pairwise distinct indices (established by
`buildMap`, which assigns list positions as indices, and never mutated). -/
def indexNodup (g : GeoMapState) : Prop :=
  (g.waypoints.map (fun w => w.index)).Nodup

instance (g : GeoMapState) : Decidable (indexNodup g) := by
  unfold indexNodup
  infer_instance

/-- At most one registered waypoint is open. -/
def atMostOneOpen (g : GeoMapState) : Prop :=
  (g.waypoints.filter (fun w => w.isOpen)).length ≤ 1

instance (g : GeoMapState) : Decidable (atMostOneOpen g) := by
  unfold atMostOneOpen
  infer_instance

theorem panTo_waypoints (g : GeoMapState) (lat lng : ℚ) (z : Option ℚ) :
    (GeoMap.panTo g lat lng z).waypoints = g.waypoints := rfl

theorem centerOnWaypoint_waypoints (env : ScreenEnv) (g : GeoMapState) (id : Nat)
    (px py : JSValue) (z : Option ℚ) :
    (GeoMap.centerOnWaypoint env g id px py z).waypoints = g.waypoints := by
  unfold GeoMap.centerOnWaypoint
  split
  · rfl
  · cases hfind : GeoMap.getWaypointById g id with
    | none => simp [hfind]
    | some w => simp [hfind, panTo_waypoints]

theorem handleWaypointContentOpened_geo (m : MainState) (i : Int) :
    (Main.handleWaypointContentOpened m i).geo = m.geo := rfl

theorem onMarkerFocus_waypoints (env : ScreenEnv) (m : MainState) (w : WaypointS) :
    (Main.onMarkerFocus env m w).geo.waypoints = m.geo.waypoints := by
  unfold Main.onMarkerFocus MapC.centerOnWaypoint
  exact centerOnWaypoint_waypoints env m.geo w.id _ _ _

/-- The waypoint list after `openWaypointContent`: unchanged for an
already-open target, otherwise every waypoint open exactly when it equals
the target. -/
theorem openWaypointContent_waypoints (env : ScreenEnv) (m : MainState) (w : WaypointS)
    (p : Option Bool) :
    (MapC.openWaypointContent env m w p).geo.waypoints
      = if w.isOpen then m.geo.waypoints
        else m.geo.waypoints.map (fun v => { v with isOpen := v == w }) := by
  unfold MapC.openWaypointContent
  by_cases h : w.isOpen
  · rw [if_pos h, if_pos h]
  · rw [if_neg h, if_neg h]
    by_cases hp : p = some false
    · rw [if_pos hp]
      rfl
    · rw [if_neg hp]
      rw [onMarkerFocus_waypoints]
      rfl

/-- In a list with pairwise distinct indices, at most one element equals
any given waypoint. -/
theorem filter_beq_length_le_one {l : List WaypointS}
    (h : (l.map (fun w => w.index)).Nodup) (t : WaypointS) :
    (l.filter (fun w => w == t)).length ≤ 1 := by
  induction l with
  | nil => simp
  | cons a l ih =>
    rw [List.map_cons, List.nodup_cons] at h
    obtain ⟨ha, hl⟩ := h
    by_cases hat : (a == t) = true
    · have hnone : l.filter (fun w => w == t) = [] := by
        rw [List.filter_eq_nil_iff]
        intro w hw hwt
        have hw1 : w = t := eq_of_beq hwt
        have ha1 : a = t := eq_of_beq hat
        exact ha (by
          rw [show a.index = w.index by rw [hw1, ha1]]
          exact List.mem_map_of_mem (fun w => w.index) hw)
      have hcons : List.filter (fun w => w == t) (a :: l)
          = a :: List.filter (fun w => w == t) l := by
        simp [List.filter_cons, hat]
      rw [hcons, hnone]
      simp
    · have hcons : List.filter (fun w => w == t) (a :: l)
          = List.filter (fun w => w == t) l := by
        simp [List.filter_cons, hat]
      rw [hcons]
      exact ih hl

theorem atMostOneOpen_setOpenWaypoint {g : GeoMapState} (h : indexNodup g) (t : WaypointS) :
    atMostOneOpen (GeoMap.setOpenWaypoint g t) := by
  unfold atMostOneOpen GeoMap.setOpenWaypoint
  rw [List.filter_map, List.length_map]
  have heq : ((fun w : WaypointS => w.isOpen)
      ∘ (fun w : WaypointS => { w with isOpen := w == t })) = fun w => w == t := rfl
  rw [heq]
  exact filter_beq_length_le_one h t

theorem indexNodup_map {g : GeoMapState} (h : indexNodup g) (f : WaypointS → WaypointS)
    (hf : ∀ w, (f w).index = w.index) :
    ((g.waypoints.map f).map (fun w => w.index)).Nodup := by
  rw [List.map_map]
  have : ((fun w : WaypointS => w.index) ∘ f) = fun w => w.index := funext fun w => hf w
  rw [this]
  exact h

/-- One waypoint-open request: via `openWaypointContentByIndex` with a raw
index value, or via `openWaypointContent` with a waypoint object (marker
click / keyboard activation). -/
inductive OpenCall where
  | byIndex (idx : JSValue) (panTo? : Option Bool)
  | byWaypoint (w : WaypointS) (panTo? : Option Bool)

def applyOpenCall (env : ScreenEnv) (m : MainState) : OpenCall → MainState
  | .byIndex idx p => MapC.openWaypointContentByIndex env m idx p
  | .byWaypoint w p => MapC.openWaypointContent env m w p

/-- Any sequence of waypoint-open calls, executed left to right. -/
def runOpenCalls (env : ScreenEnv) (m : MainState) (calls : List OpenCall) : MainState :=
  calls.foldl (applyOpenCall env) m

theorem openWaypointContent_preserves (env : ScreenEnv) (m : MainState) (w : WaypointS)
    (p : Option Bool) (h1 : indexNodup m.geo) (h2 : atMostOneOpen m.geo) :
    indexNodup (MapC.openWaypointContent env m w p).geo
      ∧ atMostOneOpen (MapC.openWaypointContent env m w p).geo := by
  have hw := openWaypointContent_waypoints env m w p
  by_cases h : w.isOpen
  · rw [if_pos h] at hw
    constructor
    · unfold indexNodup
      rw [hw]
      exact h1
    · unfold atMostOneOpen
      rw [hw]
      exact h2
  · rw [if_neg h] at hw
    constructor
    · unfold indexNodup
      rw [hw]
      exact indexNodup_map h1 _ (fun v => rfl)
    · have := atMostOneOpen_setOpenWaypoint h1 w
      unfold atMostOneOpen at this ⊢
      rw [hw]
      exact this

theorem applyOpenCall_preserves (env : ScreenEnv) (m : MainState) (c : OpenCall)
    (h1 : indexNodup m.geo) (h2 : atMostOneOpen m.geo) :
    indexNodup (applyOpenCall env m c).geo ∧ atMostOneOpen (applyOpenCall env m c).geo := by
  cases c with
  | byWaypoint w p => exact openWaypointContent_preserves env m w p h1 h2
  | byIndex idx p =>
    show indexNodup (MapC.openWaypointContentByIndex env m idx p).geo
      ∧ atMostOneOpen (MapC.openWaypointContentByIndex env m idx p).geo
    unfold MapC.openWaypointContentByIndex
    cases hfind : GeoMap.getWaypointByIndex m.geo idx with
    | none => exact ⟨h1, h2⟩
    | some w => exact openWaypointContent_preserves env m w p h1 h2

/-- C1: under pairwise-distinct indices, every sequence of waypoint-open
calls keeps at most one waypoint open, and a successful
`openWaypointContent` (target not yet open) sets exactly the target's
`isOpen` and clears every other waypoint's. -/
theorem open_waypoint_mutual_exclusion (env : ScreenEnv) (m : MainState)
    (calls : List OpenCall) (h1 : indexNodup m.geo) (h2 : atMostOneOpen m.geo) :
    atMostOneOpen (runOpenCalls env m calls).geo
    ∧ (∀ (m' : MainState) (w : WaypointS) (p : Option Bool), w.isOpen = false →
        (MapC.openWaypointContent env m' w p).geo.waypoints
          = m'.geo.waypoints.map (fun v => { v with isOpen := v == w })) := by
  constructor
  · have : ∀ (cs : List OpenCall) (m0 : MainState),
        indexNodup m0.geo → atMostOneOpen m0.geo →
        indexNodup (runOpenCalls env m0 cs).geo ∧ atMostOneOpen (runOpenCalls env m0 cs).geo := by
      intro cs
      induction cs with
      | nil => exact fun m0 ha hb => ⟨ha, hb⟩
      | cons c cs ih =>
        intro m0 ha hb
        obtain ⟨ha', hb'⟩ := applyOpenCall_preserves env m0 c ha hb
        exact ih _ ha' hb'
    exact (this calls m h1 h2).2
  · intro m' w p hw
    have := openWaypointContent_waypoints env m' w p
    rwa [if_neg (by rw [hw]; exact Bool.false_ne_true)] at this

/-- C4: `openWaypointContentByIndex` is a no-op for an out-of-range or
non-numeric index and for an already-open target; hence `goBackward` at
index 0 and `goForward` at the last index leave the state unchanged, and
a request for a non-existent waypoint is silently ignored (the embedding
is a total function — nothing is thrown). -/
theorem openByIndex_noop (env : ScreenEnv) (m : MainState) :
    (∀ q : ℚ, q < 0 ∨ (m.geo.waypoints.length : ℚ) ≤ q →
      ∀ p, MapC.openWaypointContentByIndex env m (.num q) p = m)
  ∧ (∀ p, MapC.openWaypointContentByIndex env m .nan p = m)
  ∧ (∀ s p, MapC.openWaypointContentByIndex env m (.str s) p = m)
  ∧ (∀ p, MapC.openWaypointContentByIndex env m .other p = m)
  ∧ (∀ (idx : JSValue) (w : WaypointS) (p : Option Bool),
      GeoMap.getWaypointByIndex m.geo idx = some w → w.isOpen = true →
      MapC.openWaypointContentByIndex env m idx p = m)
  ∧ (m.openWaypointContentIndex = 0 → Main.goBackward env m = m)
  ∧ (m.lastMarkerIndex = (m.geo.waypoints.length : Int) - 1 →
      m.openWaypointContentIndex = m.lastMarkerIndex → Main.goForward env m = m) := by
  have hnum : ∀ q : ℚ, q < 0 ∨ (m.geo.waypoints.length : ℚ) ≤ q →
      ∀ p, MapC.openWaypointContentByIndex env m (.num q) p = m := by
    intro q hq p
    unfold MapC.openWaypointContentByIndex
    have : GeoMap.getWaypointByIndex m.geo (.num q) = none := by
      show (if q < 0 ∨ (m.geo.waypoints.length : ℚ) ≤ q then none
        else m.geo.waypoints.find? (fun w => (w.index : ℚ) == q)) = none
      rw [if_pos hq]
    rw [this]
  refine ⟨hnum, fun p => rfl, fun s p => rfl, fun p => rfl, ?_, ?_, ?_⟩
  · intro idx w p hfind hopen
    unfold MapC.openWaypointContentByIndex
    rw [hfind]
    show MapC.openWaypointContent env m w p = m
    unfold MapC.openWaypointContent
    rw [if_pos hopen]
  · intro h0
    unfold Main.goBackward
    rw [h0]
    exact hnum _ (Or.inl (by norm_num)) none
  · intro hlast hopen
    unfold Main.goForward
    rw [hopen, hlast]
    refine hnum _ (Or.inr ?_) none
    push_cast
    linarith

/-! ## Concrete demonstration states -/

/-- A demo waypoint at latitude 0 and longitude `i`, as registered by
`buildMap` (index = position, closed). -/
def demoWaypoint (i : Nat) : WaypointS :=
  { index := i, id := i, lat := 0, lng := (i : ℚ), isOpen := false }

/-- A geo map with four demo waypoints, centered at the origin. -/
def demoGeo : GeoMapState :=
  { waypoints := [demoWaypoint 0, demoWaypoint 1, demoWaypoint 2, demoWaypoint 3],
    centerLat := 0, centerLng := 0, zoom := 13, minZoom := 0, maxZoom := 18,
    paramsZoomLevel := 13, miniMapVisible := false }

/-- The `Main` state right after construction over `demoGeo`:
`openWaypointContentIndex = -1`, `lastMarkerIndex = 3`, button states
computed by the constructor's `updateButtonDisabledStates()`. -/
def demoMain : MainState :=
  Main.updateButtonDisabledStates
    { openWaypointContentIndex := -1, lastMarkerIndex := 3,
      navLeftEnabled := false, navRightEnabled := false, minimapActive := false,
      geo := demoGeo }

/-- A rendered 800×600 screen with 10 pixels per degree. -/
def demoEnv : ScreenEnv := { width := 800, height := 600, sx := 10, sy := 10 }

/-- Witness for C1: the demo state satisfies the hypotheses, and a
concrete call sequence preserves mutual exclusion. -/
theorem open_waypoint_mutual_exclusion_witness :
    indexNodup demoMain.geo ∧ atMostOneOpen demoMain.geo
    ∧ atMostOneOpen (runOpenCalls demoEnv demoMain
        [.byIndex (.num 2) none, .byIndex (.num 3) none, .byIndex (.num 0) (some false)]).geo := by
  refine ⟨by decide, by decide, ?_⟩
  exact (open_waypoint_mutual_exclusion demoEnv demoMain
    [.byIndex (.num 2) none, .byIndex (.num 3) none, .byIndex (.num 0) (some false)]
    (by decide) (by decide)).1

/-- Witness for C4 at concrete inputs: index 7 is out of range for four
waypoints, a non-numeric index is ignored, and the two boundary
navigation calls leave the state unchanged. -/
theorem openByIndex_noop_witness :
    MapC.openWaypointContentByIndex demoEnv demoMain (.num 7) none = demoMain
    ∧ MapC.openWaypointContentByIndex demoEnv demoMain .other none = demoMain
    ∧ Main.goBackward demoEnv { demoMain with openWaypointContentIndex := 0 }
        = { demoMain with openWaypointContentIndex := 0 }
    ∧ Main.goForward demoEnv { demoMain with openWaypointContentIndex := 3 }
        = { demoMain with openWaypointContentIndex := 3 } := by
  refine ⟨?_, ?_, ?_, ?_⟩
  · exact (openByIndex_noop demoEnv demoMain).1 7 (Or.inr (by decide)) none
  · exact (openByIndex_noop demoEnv demoMain).2.2.2.1 none
  · exact (openByIndex_noop demoEnv _).2.2.2.2.2.1 (by decide)
  · exact (openByIndex_noop demoEnv _).2.2.2.2.2.2 (by decide) (by decide)

/-! ## C5: the 4-waypoint navigation scenario -/

/-- The scenario state after `openByIndex(2)`. -/
def demoC5s1 : MainState := MapC.openWaypointContentByIndex demoEnv demoMain (.num 2) none

/-- The scenario state after the subsequent `goForward()`. -/
def demoC5s2 : MainState := Main.goForward demoEnv demoC5s1

/-- The scenario state after the final `reset()`. -/
def demoC5s3 : MainState := Main.reset demoEnv demoC5s2

unseal Rat.add Rat.mul Rat.sub Rat.inv in
/-- C5 counterexample: the claim says `reset()` disables both controls;
in the code `updateButtonDisabledStates` enables the forward control iff
`openWaypointContentIndex < lastMarkerIndex`, and `-1 < 3`, so after
`reset()` the forward control is enabled, not disabled. -/
theorem reset_forward_enabled_counterexample :
    demoC5s3.openWaypointContentIndex = -1
    ∧ ¬(demoC5s3.navRightEnabled = false) := by
  constructor <;> decide

unseal Rat.add Rat.mul Rat.sub Rat.inv in
/-- C5 (amended): with 4 waypoints and initial `openIndex = -1`:
`openByIndex(2)` yields index 2 with both controls enabled; `goForward()`
yields index 3 with the forward control disabled (and backward enabled);
`reset()` yields index -1 with the backward control disabled and the
forward control enabled (since `-1 < lastIndex`). -/
theorem navigation_scenario_amended :
    (demoC5s1.openWaypointContentIndex = 2
      ∧ demoC5s1.navLeftEnabled = true ∧ demoC5s1.navRightEnabled = true)
    ∧ (demoC5s2.openWaypointContentIndex = 3
      ∧ demoC5s2.navLeftEnabled = true ∧ demoC5s2.navRightEnabled = false)
    ∧ (demoC5s3.openWaypointContentIndex = -1
      ∧ demoC5s3.navLeftEnabled = false ∧ demoC5s3.navRightEnabled = true) := by
  refine ⟨⟨?_, ?_, ?_⟩, ⟨?_, ?_, ?_⟩, ⟨?_, ?_, ?_⟩⟩ <;> decide

/-! ## C3: snapshot round trip -/

theorem updateButtonDisabledStates_parts (x : MainState) :
    (Main.updateButtonDisabledStates x).geo = x.geo
    ∧ (Main.updateButtonDisabledStates x).openWaypointContentIndex = x.openWaypointContentIndex
    ∧ (Main.updateButtonDisabledStates x).minimapActive = x.minimapActive :=
  ⟨rfl, rfl, rfl⟩

/-- Restoring the navigation-bar state: a stored `minimapActive = true`
forces the button active and fires its click callback, inverting the
mini-map layer; `false` leaves everything untouched. -/
theorem navigationBarSetCurrentState_eq (x : MainState) (b : Bool) :
    Main.navigationBarSetCurrentState x b
      = { x with
          minimapActive := if b then true else x.minimapActive,
          geo := { x.geo with
            miniMapVisible := if b then !x.geo.miniMapVisible else x.geo.miniMapVisible } } := by
  cases b <;> rfl

theorem getWaypointByIndex_congr {g g' : GeoMapState} (h : g'.waypoints = g.waypoints)
    (idx : JSValue) :
    GeoMap.getWaypointByIndex g' idx = GeoMap.getWaypointByIndex g idx := by
  unfold GeoMap.getWaypointByIndex
  cases idx <;> simp [h]

theorem clampOpt_id {mn mx : ℚ} (q : ℚ) (h1 : mn ≤ q) (h2 : q ≤ mx) :
    clampOpt q (some mn) (some mx) = q := by
  show (if q < mn then mn else if q > mx then mx else q) = q
  rw [if_neg (not_lt.mpr h1), if_neg (not_lt.mpr h2)]

/-- C3 (amended): restoring the snapshot produced by serialization
reproduces the open-index, the viewport center (stringified coordinates
parse back exactly), the zoom level, the waypoint states and the
navigation bar's serialized mini-map flag — but the mini-map layer
visibility is inverted (not preserved) whenever the serialized flag is
true, because `forceState(true)` fires the toggle callback during
restoration. -/
theorem restore_roundtrip (env : ScreenEnv) (m : MainState)
    (hlat : (ratDecExponent m.geo.centerLat).isSome)
    (hlng : (ratDecExponent m.geo.centerLng).isSome)
    (hlat1 : LATITUDE_MIN ≤ m.geo.centerLat) (hlat2 : m.geo.centerLat ≤ LATITUDE_MAX)
    (hlng1 : LONGITUDE_MIN ≤ m.geo.centerLng) (hlng2 : m.geo.centerLng ≤ LONGITUDE_MAX)
    (hz1 : m.geo.minZoom ≤ m.geo.zoom) (hz2 : m.geo.zoom ≤ m.geo.maxZoom)
    (hopen : ∀ w, GeoMap.getWaypointByIndex m.geo
        (.num ((m.openWaypointContentIndex : Int) : ℚ)) = some w → w.isOpen = true) :
    (Main.setCurrentState env m (Main.getCurrentState m)).openWaypointContentIndex
        = m.openWaypointContentIndex
    ∧ (Main.setCurrentState env m (Main.getCurrentState m)).geo.centerLat = m.geo.centerLat
    ∧ (Main.setCurrentState env m (Main.getCurrentState m)).geo.centerLng = m.geo.centerLng
    ∧ (Main.setCurrentState env m (Main.getCurrentState m)).geo.zoom = m.geo.zoom
    ∧ (Main.setCurrentState env m (Main.getCurrentState m)).minimapActive = m.minimapActive
    ∧ (Main.setCurrentState env m (Main.getCurrentState m)).geo.waypoints = m.geo.waypoints
    ∧ (Main.setCurrentState env m (Main.getCurrentState m)).geo.miniMapVisible
        = (if m.minimapActive then !m.geo.miniMapVisible else m.geo.miniMapVisible) := by
  have hm3 : Main.mapSetCurrentState
        (Main.navigationBarSetCurrentState
          (Main.updateButtonDisabledStates
            { m with openWaypointContentIndex := (Main.getCurrentState m).openWaypointContentIndex })
          (Main.getCurrentState m).minimapActive)
        (Main.getCurrentState m)
      = { m with
          openWaypointContentIndex := m.openWaypointContentIndex,
          navLeftEnabled := decide (0 < m.openWaypointContentIndex),
          navRightEnabled := decide (m.openWaypointContentIndex < m.lastMarkerIndex),
          minimapActive := if m.minimapActive then true else m.minimapActive,
          geo := { m.geo with
            miniMapVisible :=
              if m.minimapActive then !m.geo.miniMapVisible else m.geo.miniMapVisible } } := by
    simp only [navigationBarSetCurrentState_eq, Main.mapSetCurrentState,
      Main.updateButtonDisabledStates, GeoMap.setView, Main.getCurrentState,
      sanitizeNumD_valid _ _ _ (sanitizeParsed_numToString hlat),
      sanitizeNumD_valid _ _ _ (sanitizeParsed_numToString hlng),
      sanitizeNumD_num,
      clampOpt_id m.geo.centerLat hlat1 hlat2, clampOpt_id m.geo.centerLng hlng1 hlng2,
      clampOpt_id m.geo.zoom hz1 hz2]
  have hmain : Main.setCurrentState env m (Main.getCurrentState m)
      = MapC.openWaypointContentByIndex env
          (Main.mapSetCurrentState
            (Main.navigationBarSetCurrentState
              (Main.updateButtonDisabledStates
                { m with openWaypointContentIndex := (Main.getCurrentState m).openWaypointContentIndex })
              (Main.getCurrentState m).minimapActive)
            (Main.getCurrentState m))
          (.num (((Main.getCurrentState m).openWaypointContentIndex : Int) : ℚ)) (some false) := rfl
  rw [hmain, hm3]
  set m3 : MainState :=
    { m with
      openWaypointContentIndex := m.openWaypointContentIndex,
      navLeftEnabled := decide (0 < m.openWaypointContentIndex),
      navRightEnabled := decide (m.openWaypointContentIndex < m.lastMarkerIndex),
      minimapActive := if m.minimapActive then true else m.minimapActive,
      geo := { m.geo with
        miniMapVisible :=
          if m.minimapActive then !m.geo.miniMapVisible else m.geo.miniMapVisible } } with hm3def
  have hmini : m3.minimapActive = m.minimapActive := by
    rw [hm3def]
    cases hmm : m.minimapActive <;> simp
  have hwps : m3.geo.waypoints = m.geo.waypoints := by rw [hm3def]
  have hfin : MapC.openWaypointContentByIndex env m3
      (.num (((Main.getCurrentState m).openWaypointContentIndex : Int) : ℚ)) (some false) = m3 := by
    unfold MapC.openWaypointContentByIndex
    rw [getWaypointByIndex_congr hwps]
    cases hfind : GeoMap.getWaypointByIndex m.geo
        (.num (((Main.getCurrentState m).openWaypointContentIndex : Int) : ℚ)) with
    | none => rfl
    | some w =>
      have hw := hopen w hfind
      show MapC.openWaypointContent env m3 w (some false) = m3
      unfold MapC.openWaypointContent
      rw [if_pos hw]
  rw [hfin, hm3def]
  refine ⟨rfl, rfl, rfl, rfl, ?_, rfl, rfl⟩
  cases m.minimapActive <;> simp

/-- A state whose mini-map is toggled on (button active and layer
visible), center `(5, 6)`, no waypoint open. -/
def demoC3 : MainState :=
  { openWaypointContentIndex := -1, lastMarkerIndex := 3, navLeftEnabled := false,
    navRightEnabled := true, minimapActive := true,
    geo := { demoGeo with centerLat := 5, centerLng := 6, miniMapVisible := true } }

unseal Rat.add Rat.mul Rat.sub Rat.inv in
/-- C3 counterexample: with the mini-map on, the round trip
`setCurrentState(getCurrentState())` leaves the mini-map layer hidden —
the restore inverts rather than reproduces it, so the restored state is
not observably identical. -/
theorem restore_toggles_minimap_counterexample :
    (Main.setCurrentState demoEnv demoC3 (Main.getCurrentState demoC3)).geo.miniMapVisible = false
    ∧ demoC3.geo.miniMapVisible = true := by
  constructor <;> decide

unseal Rat.add Rat.mul Rat.sub Rat.inv in
/-- Witness for C3 at the concrete state `demoC3` (all hypotheses hold:
terminating-decimal center within range, zoom within bounds, no open
waypoint). -/
theorem restore_roundtrip_witness :
    (Main.setCurrentState demoEnv demoC3 (Main.getCurrentState demoC3)).openWaypointContentIndex
        = demoC3.openWaypointContentIndex
    ∧ (Main.setCurrentState demoEnv demoC3 (Main.getCurrentState demoC3)).geo.centerLat
        = demoC3.geo.centerLat
    ∧ (Main.setCurrentState demoEnv demoC3 (Main.getCurrentState demoC3)).geo.zoom
        = demoC3.geo.zoom
    ∧ (Main.setCurrentState demoEnv demoC3 (Main.getCurrentState demoC3)).minimapActive
        = demoC3.minimapActive := by
  have h := restore_roundtrip demoEnv demoC3 (by decide) (by decide) (by decide) (by decide)
    (by decide) (by decide) (by decide) (by decide)
    (by
      intro w hw
      have hnone : GeoMap.getWaypointByIndex demoC3.geo
          (.num ((demoC3.openWaypointContentIndex : Int) : ℚ)) = none := by decide
      rw [hnone] at hw
      cases hw)
  exact ⟨h.1, h.2.1, h.2.2.2.1, h.2.2.2.2.1⟩

/-! ## C9: marker-focus centering -/

/-- A zero-width rendered screen. -/
def demoEnvZero : ScreenEnv := { width := 0, height := 600, sx := 10, sy := 10 }

unseal Rat.add Rat.mul Rat.sub Rat.inv in
/-- C9 at the failing input: with no content open
(`openWaypointContentIndex = -1`), the marker-focus handler still centers
the marker at the horizontal fraction 0.25 (container x = 200 of 800),
not 0.5 (x = 400) as the claim requires, because `Main` passes
`this.getCurrentOpenWaypointContentIndex !== -1` — the method reference,
not its result — which is always true.  The zero-rendered-size no-op of
`centerOnWaypoint` does hold (final conjunct, at a concrete state). -/
theorem marker_focus_bias_bug :
    demoMain.openWaypointContentIndex = -1
    ∧ containerX demoEnv (Main.onMarkerFocus demoEnv demoMain (demoWaypoint 1)).geo
        (demoWaypoint 1).lng = MAP_CENTER_X_PERCENTAGE_CONTENT_OPEN * demoEnv.width
    ∧ MAP_CENTER_X_PERCENTAGE_CONTENT_OPEN * demoEnv.width
        ≠ MAP_CENTER_X_PERCENTAGE * demoEnv.width
    ∧ GeoMap.centerOnWaypoint demoEnvZero demoGeo 1 (.num MAP_CENTER_X_PERCENTAGE) .other none
        = demoGeo := by
  exact ⟨by decide, by decide, by decide, by decide⟩

/-- The general zero-size no-op of `centerOnWaypoint` and the general
marker-landing property: when the rendered size is nonzero, the scales
are nonzero and the pan target stays within the sanitization ranges, the
marker's container x after `centerOnWaypoint` is exactly
`width * fraction`. -/
theorem centerOnWaypoint_lands_marker (env : ScreenEnv) (g : GeoMapState) (id : Nat)
    (w : WaypointS) (pct : ℚ)
    (hw : GeoMap.getWaypointById g id = some w)
    (hW : env.width ≠ 0) (hH : env.height ≠ 0) (hsx : env.sx ≠ 0)
    (hpct0 : 0 ≤ pct) (hpct1 : pct ≤ 1)
    (hlatR : LATITUDE_MIN ≤ g.centerLat - ((env.height / 2
        - (env.height * DEFAULT_MAP_CENTER_Y_PERCENTAGE - containerY env g w.lat)
        - env.height / 2) / env.sy))
    (hlatR2 : g.centerLat - ((env.height / 2
        - (env.height * DEFAULT_MAP_CENTER_Y_PERCENTAGE - containerY env g w.lat)
        - env.height / 2) / env.sy) ≤ LATITUDE_MAX)
    (hlngR : LONGITUDE_MIN ≤ g.centerLng + ((env.width / 2
        - (env.width * pct - containerX env g w.lng) - env.width / 2) / env.sx))
    (hlngR2 : g.centerLng + ((env.width / 2
        - (env.width * pct - containerX env g w.lng) - env.width / 2) / env.sx)
        ≤ LONGITUDE_MAX) :
    containerX env (GeoMap.centerOnWaypoint env g id (.num pct) .other none) w.lng
      = env.width * pct := by
  unfold GeoMap.centerOnWaypoint
  rw [if_neg (by push_neg; exact ⟨hW, hH⟩), hw]
  have hpx : sanitizeNumD (.num pct) DEFAULT_MAP_CENTER_X_PERCENTAGE (some 0) (some 1) = pct := by
    rw [sanitizeNumD_num, clampOpt_id _ hpct0 hpct1]
  have hpy : sanitizeNumD .other DEFAULT_MAP_CENTER_Y_PERCENTAGE (some 0) (some 1)
      = DEFAULT_MAP_CENTER_Y_PERCENTAGE := by
    rw [sanitizeNumD_invalid]
    rfl
  simp only [hpx, hpy]
  unfold GeoMap.panTo
  rw [sanitizeNumD_num, sanitizeNumD_num, clampOpt_id _ hlatR hlatR2, clampOpt_id _ hlngR hlngR2]
  unfold containerX
  field_simp
  ring

/-! ## C2: the xAPI success computation -/

/-- C2 at the failing input: a task completes with
`result = {completion: true, success: true, score: 0, maxScore: 10}` and
a numeric event max score.  The claim (and the spec's intent) require
`success = result.success = true`; the code evaluates
`(result.success ?? result.maxScore) ? ((result.score ?? 0) >= result.maxScore) : false`,
takes the comparison branch because `result.success` is truthy, and
stores `success = (0 >= 10) = false`. -/
theorem xapi_success_ignores_reported_success :
    (ContentBundle.handleXAPI ⟨[], []⟩ 0 (some 10) "completed"
        (some { completion := some true, success := some true, score := some 0, maxScore := some 10 })).trackingMap
      = [(0, { isTask := none, completed := true, success := false })] := by
  decide

/-! ## C6/C7: completion aggregation and reset -/

/-- The tracking records the constructor loop seeds, starting at content
index `i`: one `{isTask: false, completed: true, success: true}` record
per successfully constructed non-task instance, keyed by its position. -/
def seedRecords : Nat → List (Option InstanceS) → TrackingMap
  | _, [] => []
  | i, none :: cs => seedRecords (i + 1) cs
  | i, some inst :: cs =>
    (if isInstanceTask inst then [] else [(i, ⟨some false, true, true⟩)])
      ++ seedRecords (i + 1) cs

/-- Number of (successfully constructed) task instances in a content
list. -/
def taskCount : List (Option InstanceS) → Nat
  | [] => 0
  | none :: cs => taskCount cs
  | some inst :: cs => (if isInstanceTask inst then 1 else 0) + taskCount cs

theorem seedRecords_keys_ge : ∀ (cs : List (Option InstanceS)) (i : Nat) (k : Nat),
    k ∈ (seedRecords i cs).map Prod.fst → i ≤ k := by
  intro cs
  induction cs with
  | nil => intro i k hk; simp [seedRecords] at hk
  | cons c cs ih =>
    intro i k hk
    cases c with
    | none =>
      rw [show seedRecords i (none :: cs) = seedRecords (i + 1) cs from rfl] at hk
      have := ih (i + 1) k hk
      omega
    | some inst =>
      rw [show seedRecords i (some inst :: cs)
          = (if isInstanceTask inst then ([] : TrackingMap) else [(i, ⟨some false, true, true⟩)])
            ++ seedRecords (i + 1) cs from rfl,
        List.map_append, List.mem_append] at hk
      rcases hk with hk | hk
      · by_cases ht : isInstanceTask inst
        · rw [if_pos ht] at hk
          simp at hk
        · rw [if_neg ht] at hk
          simp at hk
          omega
      · have := ih (i + 1) k hk
        omega

theorem seedRecords_completed : ∀ (cs : List (Option InstanceS)) (i : Nat)
    (e : Nat × TrackingRecord), e ∈ seedRecords i cs → e.2 = ⟨some false, true, true⟩ := by
  intro cs
  induction cs with
  | nil => intro i e he; simp [seedRecords] at he
  | cons c cs ih =>
    intro i e he
    cases c with
    | none =>
      rw [show seedRecords i (none :: cs) = seedRecords (i + 1) cs from rfl] at he
      exact ih (i + 1) e he
    | some inst =>
      rw [show seedRecords i (some inst :: cs)
          = (if isInstanceTask inst then ([] : TrackingMap) else [(i, ⟨some false, true, true⟩)])
            ++ seedRecords (i + 1) cs from rfl,
        List.mem_append] at he
      rcases he with he | he
      · by_cases ht : isInstanceTask inst
        · rw [if_pos ht] at he
          simp at he
        · rw [if_neg ht] at he
          rw [List.mem_singleton] at he
          rw [he]
      · exact ih (i + 1) e he

theorem seedRecords_length : ∀ (cs : List (Option InstanceS)) (i : Nat),
    (seedRecords i cs).length + taskCount cs = (cs.filterMap id).length := by
  intro cs
  induction cs with
  | nil => intro i; rfl
  | cons c cs ih =>
    intro i
    have hih := ih (i + 1)
    cases c with
    | none =>
      rw [show seedRecords i (none :: cs) = seedRecords (i + 1) cs from rfl,
        show taskCount (none :: cs) = taskCount cs from rfl,
        show List.filterMap id (none :: cs) = List.filterMap id cs from rfl]
      exact hih
    | some inst =>
      rw [show seedRecords i (some inst :: cs)
          = (if isInstanceTask inst then ([] : TrackingMap) else [(i, ⟨some false, true, true⟩)])
            ++ seedRecords (i + 1) cs from rfl,
        show taskCount (some inst :: cs)
          = (if isInstanceTask inst then 1 else 0) + taskCount cs from rfl,
        show List.filterMap id (some inst :: cs) = inst :: List.filterMap id cs from rfl,
        List.length_append, List.length_cons]
      by_cases ht : isInstanceTask inst
      · rw [if_pos ht, if_pos ht]
        simp only [List.length_nil]
        omega
      · rw [if_neg ht, if_neg ht]
        simp only [List.length_singleton]
        omega

theorem tmSet_fresh {tm : TrackingMap} {k : Nat}
    (h : ∀ k' ∈ tm.map Prod.fst, k' ≠ k) (r : TrackingRecord) :
    tmSet tm k r = tm ++ [(k, r)] := by
  unfold tmSet
  rw [if_neg ?_]
  rw [List.any_eq_true]
  push_neg
  intro e he
  have := h e.1 (List.mem_map_of_mem Prod.fst he)
  simpa using this

theorem addContent_none (b : ContentBundleS) (idx : Nat) :
    ContentBundle.addContent b none idx = b := rfl

theorem addContent_task {b : ContentBundleS} {inst : InstanceS} (idx : Nat)
    (ht : isInstanceTask inst = true) :
    ContentBundle.addContent b (some inst) idx
      = { b with instances := b.instances ++ [inst] } := by
  have h : (if isInstanceTask inst = true then b
      else { b with trackingMap := tmSet b.trackingMap idx ⟨some false, true, true⟩ }) = b :=
    if_pos ht
  show (let b1 := if isInstanceTask inst = true then b
      else { b with trackingMap := tmSet b.trackingMap idx ⟨some false, true, true⟩ };
    { b1 with instances := b1.instances ++ [inst] })
    = { b with instances := b.instances ++ [inst] }
  rw [h]

/-- C6 (part of the claim, also used for C7): a non-task instance is
seeded with `{isTask: false, completed: true, success: true}` at
`addContent`. -/
theorem addContent_nonTask {b : ContentBundleS} {inst : InstanceS} (idx : Nat)
    (ht : isInstanceTask inst = false) :
    ContentBundle.addContent b (some inst) idx
      = { instances := b.instances ++ [inst],
          trackingMap := tmSet b.trackingMap idx ⟨some false, true, true⟩ } := by
  have h : (if isInstanceTask inst = true then b
      else { b with trackingMap := tmSet b.trackingMap idx ⟨some false, true, true⟩ })
      = { b with trackingMap := tmSet b.trackingMap idx ⟨some false, true, true⟩ } :=
    if_neg (by rw [ht]; exact Bool.false_ne_true)
  show (let b1 := if isInstanceTask inst = true then b
      else { b with trackingMap := tmSet b.trackingMap idx ⟨some false, true, true⟩ };
    { b1 with instances := b1.instances ++ [inst] }) = _
  rw [h]

theorem addContents_eq : ∀ (cs : List (Option InstanceS)) (b : ContentBundleS) (i : Nat),
    (∀ k ∈ b.trackingMap.map Prod.fst, k < i) →
    ContentBundle.addContents b cs i
      = { instances := b.instances ++ cs.filterMap id,
          trackingMap := b.trackingMap ++ seedRecords i cs } := by
  intro cs
  induction cs with
  | nil =>
    intro b i h
    show b = _
    simp [seedRecords]
  | cons c cs ih =>
    intro b i h
    show ContentBundle.addContents (ContentBundle.addContent b c i) cs (i + 1) = _
    cases c with
    | none =>
      rw [addContent_none, ih b (i + 1) (fun k hk => Nat.lt_succ_of_lt (h k hk))]
      rw [show seedRecords i (none :: cs) = seedRecords (i + 1) cs from rfl,
        show List.filterMap id (none :: cs) = List.filterMap id cs from rfl]
    | some inst =>
      by_cases ht : isInstanceTask inst
      · rw [addContent_task i ht,
          ih { instances := b.instances ++ [inst], trackingMap := b.trackingMap } (i + 1)
            (fun k hk => Nat.lt_succ_of_lt (h k hk))]
        rw [show seedRecords i (some inst :: cs)
            = (if isInstanceTask inst then ([] : TrackingMap) else [(i, ⟨some false, true, true⟩)])
              ++ seedRecords (i + 1) cs from rfl,
          if_pos ht,
          show List.filterMap id (some inst :: cs) = inst :: List.filterMap id cs from rfl]
        simp [List.append_assoc]
      · have hfresh : ∀ k' ∈ b.trackingMap.map Prod.fst, k' ≠ i := by
          intro k' hk'
          have := h k' hk'
          omega
        have hbound : ∀ k ∈ (tmSet b.trackingMap i ⟨some false, true, true⟩).map Prod.fst,
            k < i + 1 := by
          rw [tmSet_fresh hfresh]
          intro k hk
          rw [List.map_append, List.mem_append] at hk
          rcases hk with hk | hk
          · have := h k hk
            omega
          · simp at hk
            omega
        rw [addContent_nonTask i (by simpa using ht),
          ih { instances := b.instances ++ [inst],
               trackingMap := tmSet b.trackingMap i ⟨some false, true, true⟩ } (i + 1) hbound]
        rw [show seedRecords i (some inst :: cs)
            = (if isInstanceTask inst then ([] : TrackingMap) else [(i, ⟨some false, true, true⟩)])
              ++ seedRecords (i + 1) cs from rfl,
          if_neg ht,
          show List.filterMap id (some inst :: cs) = inst :: List.filterMap id cs from rfl]
        rw [tmSet_fresh hfresh]
        simp [List.append_assoc]

theorem taskCount_eq_zero {cs : List (Option InstanceS)}
    (h : ∀ c ∈ cs, ∀ i, c = some i → isInstanceTask i = false) : taskCount cs = 0 := by
  induction cs with
  | nil => rfl
  | cons c cs ih =>
    cases c with
    | none =>
      rw [show taskCount (none :: cs) = taskCount cs from rfl]
      exact ih (fun c hc i hi => h c (List.mem_cons_of_mem _ hc) i hi)
    | some inst =>
      rw [show taskCount (some inst :: cs)
          = (if isInstanceTask inst then 1 else 0) + taskCount cs from rfl,
        if_neg (by
          rw [h (some inst) (List.mem_cons_self _ _) inst rfl]
          exact Bool.false_ne_true),
        ih (fun c hc i hi => h c (List.mem_cons_of_mem _ hc) i hi)]

theorem taskCount_pos {cs : List (Option InstanceS)} {i : InstanceS}
    (hmem : some i ∈ cs) (ht : isInstanceTask i = true) : 1 ≤ taskCount cs := by
  induction cs with
  | nil => cases hmem
  | cons c cs ih =>
    rcases List.mem_cons.mp hmem with hc | hc
    · rw [← hc, show taskCount (some i :: cs)
          = (if isInstanceTask i then 1 else 0) + taskCount cs from rfl, if_pos ht]
      omega
    · cases c with
      | none =>
        rw [show taskCount (none :: cs) = taskCount cs from rfl]
        exact ih hc
      | some inst =>
        rw [show taskCount (some inst :: cs)
            = (if isInstanceTask inst then 1 else 0) + taskCount cs from rfl]
        have := ih hc
        omega

/-- The bundle built by the constructor, explicitly. -/
theorem build_eq (cs : List (Option InstanceS)) :
    ContentBundle.build cs
      = { instances := cs.filterMap id, trackingMap := seedRecords 0 cs } := by
  have := addContents_eq cs ⟨[], []⟩ 0 (by simp)
  simpa [ContentBundle.build] using this

/-- C6: `isCompleted` holds iff the tracking map covers every instance
and every record is completed; an all-non-task bundle is completed
immediately after construction; a bundle with a (successfully
constructed) task instance is not completed right after construction (the
task has no record yet); any record with `completed = false` keeps the
bundle uncompleted; and once the missing task reports completion
(`result.completion` absent or true) via the xAPI listener, the bundle is
completed. -/
theorem isCompleted_spec :
    (∀ b : ContentBundleS, ContentBundle.isCompleted b = true
      ↔ (b.instances.length = b.trackingMap.length ∧ ∀ e ∈ b.trackingMap, e.2.completed = true))
  ∧ (∀ cs : List (Option InstanceS),
      (∀ c ∈ cs, ∀ i, c = some i → isInstanceTask i = false) →
      ContentBundle.isCompleted (ContentBundle.build cs) = true)
  ∧ (∀ (cs : List (Option InstanceS)) (j : Nat) (i : InstanceS),
      cs.get? j = some (some i) → isInstanceTask i = true →
      ContentBundle.isCompleted (ContentBundle.build cs) = false)
  ∧ (∀ (b : ContentBundleS) (k : Nat) (r : TrackingRecord),
      (k, r) ∈ b.trackingMap → r.completed = false →
      ContentBundle.isCompleted b = false)
  ∧ (∀ (cs : List (Option InstanceS)) (j : Nat) (ms : ℚ) (r : XAPIResult),
      (ContentBundle.build cs).instances.length
        = (ContentBundle.build cs).trackingMap.length + 1 →
      (∀ k ∈ (ContentBundle.build cs).trackingMap.map Prod.fst, k ≠ j) →
      r.completion ≠ some false →
      ContentBundle.isCompleted
        (ContentBundle.handleXAPI (ContentBundle.build cs) j (some ms) "completed" (some r))
        = true) := by
  have hiff : ∀ b : ContentBundleS, ContentBundle.isCompleted b = true
      ↔ (b.instances.length = b.trackingMap.length ∧ ∀ e ∈ b.trackingMap, e.2.completed = true) := by
    intro b
    unfold ContentBundle.isCompleted
    rw [Bool.and_eq_true, beq_iff_eq, List.all_eq_true]
  refine ⟨hiff, ?_, ?_, ?_, ?_⟩
  · intro cs hall
    rw [hiff, build_eq]
    refine ⟨?_, ?_⟩
    · show (cs.filterMap id).length = (seedRecords 0 cs).length
      have hlen := seedRecords_length cs 0
      have htc0 : taskCount cs = 0 := taskCount_eq_zero hall
      omega
    · intro e he
      rw [seedRecords_completed cs 0 e he]
  · intro cs j i hj ht
    have hmem : some i ∈ cs := List.get?_mem hj
    have htc : 1 ≤ taskCount cs := taskCount_pos hmem ht
    have hlen := seedRecords_length cs 0
    rw [Bool.eq_false_iff]
    intro hcb
    have h2 := (hiff _).mp hcb
    rw [build_eq] at h2
    have hq : (cs.filterMap id).length = (seedRecords 0 cs).length := h2.1
    omega
  · intro b k r hmem hfalse
    rw [Bool.eq_false_iff]
    intro hcb
    have h2 := (hiff b).mp hcb
    have := h2.2 (k, r) hmem
    rw [hfalse] at this
    cases this
  · intro cs j ms r hlen hkeys hcompl
    have hstep : ContentBundle.handleXAPI (ContentBundle.build cs) j (some ms) "completed" (some r)
        = { ContentBundle.build cs with
            trackingMap := (ContentBundle.build cs).trackingMap ++ [(j, xapiRecord r)] } := by
      unfold ContentBundle.handleXAPI
      rw [if_neg (by simp), if_neg (by decide)]
      rw [tmSet_fresh hkeys]
      rfl
    rw [hiff, hstep]
    constructor
    · show (ContentBundle.build cs).instances.length
        = ((ContentBundle.build cs).trackingMap ++ [(j, xapiRecord r)]).length
      rw [List.length_append, List.length_singleton, hlen]
    · intro e he
      rw [List.mem_append] at he
      rcases he with he | he
      · rw [build_eq] at he
        rw [seedRecords_completed cs 0 e he]
      · rw [List.mem_singleton] at he
        rw [he]
        show (xapiRecord r).completed = true
        unfold xapiRecord
        cases hc : r.completion with
        | none => rfl
        | some b =>
          cases b with
          | false => exact absurd hc hcompl
          | true => simp

/-- A passive (non-task) instance: no `isTask` property, no
`getMaxScore`. -/
def passiveInstance : InstanceS :=
  { isTaskProp := none, getMaxScoreVal := none, getScoreVal := none,
    hasResetTask := false, resetInvoked := false }

/-- A task instance with max score 10 and a `resetTask` capability. -/
def taskInstance : InstanceS :=
  { isTaskProp := some true, getMaxScoreVal := some 10, getScoreVal := some 0,
    hasResetTask := true, resetInvoked := false }

/-- Witness for C6 at concrete inputs: a bundle of one passive item and
one task is not completed after construction; once the task reports
completion it is; an all-passive bundle is completed immediately. -/
theorem isCompleted_spec_witness :
    ContentBundle.isCompleted (ContentBundle.build [some passiveInstance, some taskInstance])
      = false
    ∧ ContentBundle.isCompleted
        (ContentBundle.handleXAPI (ContentBundle.build [some passiveInstance, some taskInstance])
          1 (some 10) "completed"
          (some { completion := none, success := none, score := some 10, maxScore := some 10 }))
      = true
    ∧ ContentBundle.isCompleted (ContentBundle.build [some passiveInstance]) = true := by
  refine ⟨?_, ?_, ?_⟩
  · exact isCompleted_spec.2.2.1 [some passiveInstance, some taskInstance] 1 taskInstance
      (by decide) (by decide)
  · exact isCompleted_spec.2.2.2.2 [some passiveInstance, some taskInstance] 1 10
      { completion := none, success := none, score := some 10, maxScore := some 10 }
      (by decide) (by decide) (by decide)
  · exact isCompleted_spec.2.1 [some passiveInstance]
      (by intro c hc i hi; rw [List.mem_singleton] at hc; rw [hc] at hi;
          injection hi with hi; rw [← hi]; decide)

/-- C7: after `ContentBundle.reset()` a record survives exactly when it
carries `isTask === false` (so every record written by the xAPI listener,
which has no `isTask` field, is discarded, and every seeded non-task
record persists unchanged); each instance's `resetTask` capability is
invoked when present; reset is idempotent; and the controller-level
`Main.reset()` leaves `openWaypointContentIndex = -1`. -/
theorem reset_spec :
    (∀ (b : ContentBundleS) (k : Nat) (r : TrackingRecord),
      ((k, r) ∈ (ContentBundle.reset b).trackingMap
        ↔ ((k, r) ∈ b.trackingMap ∧ r.isTask = some false)))
  ∧ (∀ b : ContentBundleS,
      (ContentBundle.reset b).instances.map (fun i => i.resetInvoked)
        = b.instances.map (fun i => i.hasResetTask || i.resetInvoked))
  ∧ (∀ b : ContentBundleS, ContentBundle.reset (ContentBundle.reset b) = ContentBundle.reset b)
  ∧ (∀ (env : ScreenEnv) (m : MainState),
      (Main.reset env m).openWaypointContentIndex = -1) := by
  refine ⟨?_, ?_, ?_, ?_⟩
  · intro b k r
    show (k, r) ∈ b.trackingMap.filter (fun e => e.2.isTask == some false) ↔ _
    rw [List.mem_filter]
    constructor
    · intro ⟨h1, h2⟩
      exact ⟨h1, by simpa using h2⟩
    · intro ⟨h1, h2⟩
      exact ⟨h1, by simpa using h2⟩
  · intro b
    show (b.instances.map _).map _ = _
    rw [List.map_map]
    apply List.map_congr_left
    intro i _
    rw [Function.comp_apply]
    by_cases h : i.hasResetTask = true
    · rw [if_pos h, h]
      rfl
    · rw [if_neg h]
      rw [Bool.not_eq_true] at h
      rw [h, Bool.false_or]
  · intro b
    unfold ContentBundle.reset
    rw [List.filter_filter]
    congr 1
    · rw [List.map_map]
      apply List.map_congr_left
      intro i _
      rw [Function.comp_apply]
      by_cases h : i.hasResetTask = true
      · rw [if_pos h]
        simp [h]
      · rw [if_neg h, if_neg h]
    · apply List.filter_congr
      intro a _
      rw [Bool.and_self]
  · intro env m
    rfl

/-- Witness for C7 at a concrete bundle: the listener-written task record
(no `isTask` field) is gone after reset, the seeded passive record
survives, and the task instance's reset capability was invoked. -/
theorem reset_spec_witness :
    ((1 : Nat), ({ isTask := none, completed := true, success := false } : TrackingRecord))
        ∉ (ContentBundle.reset
          { instances := [passiveInstance, taskInstance],
            trackingMap := [(0, ⟨some false, true, true⟩), (1, ⟨none, true, false⟩)] }).trackingMap
    ∧ ((0 : Nat), ({ isTask := some false, completed := true, success := true } : TrackingRecord))
        ∈ (ContentBundle.reset
          { instances := [passiveInstance, taskInstance],
            trackingMap := [(0, ⟨some false, true, true⟩), (1, ⟨none, true, false⟩)] }).trackingMap
    ∧ (Main.reset demoEnv demoMain).openWaypointContentIndex = -1 := by
  refine ⟨?_, ?_, ?_⟩
  · intro hmem
    have := (reset_spec.1 _ 1 ⟨none, true, false⟩).mp hmem
    exact absurd this.2 (by decide)
  · exact (reset_spec.1 _ 0 ⟨some false, true, true⟩).mpr ⟨by decide, rfl⟩
  · exact reset_spec.2.2.2 demoEnv demoMain

end StoryMap
